import Mathlib

/-!
# builder/digitalocean: `stepConnectSSH`

A shallow embedding of `step_connect_ssh.go`.

`Run` starts one goroutine (the attempt loop, lines 52-96) and then blocks in
`ConnectWaitLoop` (lines 101-125).  The two sides share the two buffered
channels `connected` and `connectQuit`, the variable `comm` and the field
`s.conn`.  The embedding is a state record `Sys` holding all of these, and a
transition function `step` driven by a schedule:

* `Step.attempt r` lets the goroutine run one iteration of its `for` loop, the
  environment answering the dial and the handshake of that iteration with `r`;
* `Step.result`, `Step.timeout`, `Step.tick` let `Run` take the corresponding
  `case` of the `select` at line 103;
* `Step.cancel` is the runner writing `multistep.StateCancelled` into the state
  bag.

An iteration of the goroutine touches the shared channels only at its first
statement (the stop check) and at its last one (the send), so it is run as one
transition.  Everything the code does to the outside world (writes to the state
bag, `ui` calls, dials, handshakes, channel sends, `Close`) is appended to
`Sys.trace` at the place where the code does it.

A send on a full channel leaves its sender blocked (`Worker.sending`,
`Main.returning`) until a later move retries it; the invariant `Inv` shows that
no run reaches either state.  The last part of the file takes the statements
about `Run` and `Cleanup` one by one.
-/

namespace Digitalocean

/-! ## Data model -/

/-- A `net.Conn` handle, named by a number. -/
abbrev Conn := Nat

/-- A `packer.Communicator` handle, named by a number. -/
abbrev Communicator := Nat

/-- The constant `time.Millisecond`: a `time.Duration` is a number of
nanoseconds. -/
def Millisecond : Nat := 1000000

/-- The constant `time.Second`. -/
def Second : Nat := 1000000000

/-- The return type `multistep.StepAction`. -/
inductive StepAction
  | ActionContinue
  | ActionHalt
  deriving DecidableEq, Repr

/-- The fields of `config` that the step reads. -/
structure config where
  SSHUsername : String
  SSHPort : Nat
  SSHTimeout : Nat
  deriving DecidableEq, Repr

/-- The dynamic values (`interface{}`) this step finds in, or stores into, the
state bag.  An `error` is carried by its message. -/
inductive Value
  | config (c : config)
  | str (s : String)
  | ui
  | err (msg : String)
  | comm (c : Option Communicator)
  | bool (b : Bool)
  deriving DecidableEq, Repr

/-- The state bag `map[string]interface{}`, as an association list. -/
abbrev StateBag := List (String × Value)

/-- The map read `state[k]`. -/
def StateBag.get (st : StateBag) (k : String) : Option Value :=
  List.lookup k st

/-- The map write `state[k] = v`. -/
def StateBag.set (st : StateBag) (k : String) (v : Value) : StateBag :=
  (k, v) :: st.filter (fun p => p.1 != k)

/-- The key `multistep.StateCancelled`, a constant of package `multistep`. -/
def StateCancelled : String := "cancelled"

/-- The receiver `stepConnectSSH`. -/
structure stepConnectSSH where
  conn : Option Conn
  deriving DecidableEq, Repr

/-- What the environment answers to the dial and the handshake of one iteration
of the attempt loop: `net.DialTimeout` fails (and returns a nil connection), or
it returns `c` and `ssh.New` fails, or it returns `c` and `ssh.New` returns the
communicator `k`. -/
inductive AttemptResult
  | dialError (e : String)
  | handshakeError (c : Conn) (e : String)
  | connectedOk (c : Conn) (k : Communicator)
  deriving DecidableEq, Repr

/-- Observable actions of the code, in program order.  `logLine` is `log.Println`, `logf` is
`log.Printf` with its arguments printed.  A `dial` is lines 66-72: the attempt
number and port that are logged, the call of `net.DialTimeout`, and whether it
returned a connection.  A `handshake` is the call of `ssh.New` at line 75 with
the error it returned, if any. -/
inductive Event
  | stateSet (key : String) (v : Value)
  | uiSay (msg : String)
  | uiError (msg : String)
  | logLine (msg : String)
  | logf (format : String) (args : List String)
  | dial (attempt : Nat) (port : Nat) (ok : Bool)
  | handshake (c : Conn) (user : String) (err : Option String)
  | publish (v : Option String)
  | quit
  | close (c : Conn)
  deriving DecidableEq, Repr

/-- Where the goroutine of lines 52-96 stands. -/
inductive Worker
  | absent
  | looping
  | sending (v : Option String)
  | stopped
  | done
  deriving DecidableEq, Repr

/-- Where `Run` stands: inside `ConnectWaitLoop`, blocked in the deferred send
of line 48 on its way out with action `a`, or returned. -/
inductive Main
  | waiting
  | returning (a : StepAction)
  | returned (a : StepAction)
  deriving DecidableEq, Repr

/-- The joint state of `Run` and of its goroutine. -/
structure Sys where
  cfg : config
  conn : Option Conn
  comm : Option Communicator
  connected : List (Option String)
  connectQuit : List Bool
  attempts : Nat
  handshakeAttempts : Nat
  worker : Worker
  state : StateBag
  main : Main
  trace : List Event
  deriving DecidableEq, Repr

/-- One move of the schedule. -/
inductive Step
  | attempt (r : AttemptResult)
  | result
  | timeout
  | tick
  | cancel
  deriving DecidableEq, Repr

/-! ## Channels -/

/-- A send on a buffered channel of capacity `cap`: `none` when it would block. -/
def chanSend {α : Type} (cap : Nat) (buf : List α) (v : α) : Option (List α) :=
  if buf.length < cap then some (buf ++ [v]) else none

/-- A receive that does not wait: `none` when nothing is buffered. -/
def chanRecv {α : Type} (buf : List α) : Option (α × List α) :=
  match buf with
  | [] => none
  | v :: rest => some (v, rest)

/-! ## The attempt loop (lines 52-96) -/

/-- The send `connected <- v` that ends the goroutine (lines 85-86 and 95). -/
def publish (σ : Sys) (v : Option String) : Sys :=
  match chanSend 1 σ.connected v with
  | some buf =>
      { σ with connected := buf, worker := Worker.done,
               trace := σ.trace ++ [Event.publish v] }
  | none => { σ with worker := Worker.sending v }

/-- One iteration of the `for` loop at line 58, the dial and the handshake
coming out as `r`. -/
def attemptIter (σ : Sys) (r : AttemptResult) : Sys :=
  match σ.worker with
  | Worker.absent => σ
  | Worker.stopped => σ
  | Worker.done => σ
  | Worker.sending v => publish σ v
  | Worker.looping =>
    match chanRecv σ.connectQuit with
    | some (_, rest) => { σ with connectQuit := rest, worker := Worker.stopped }
    | none =>
      let σ1 := { σ with attempts := σ.attempts + 1 }
      match r with
      | AttemptResult.dialError _ =>
        { σ1 with conn := none,
                  trace := σ.trace ++ [Event.dial σ1.attempts σ.cfg.SSHPort false] }
      | AttemptResult.handshakeError c e =>
        let σ2 := { σ1 with conn := some c, comm := none,
                            handshakeAttempts := σ.handshakeAttempts + 1,
                            trace := σ.trace ++
                              [Event.dial σ1.attempts σ.cfg.SSHPort true,
                               Event.logLine "TCP connection made. Attempting SSH handshake.",
                               Event.handshake c σ.cfg.SSHUsername (some e),
                               Event.logf "SSH handshake error: %s" [e]] }
        if σ2.handshakeAttempts > 5 then publish σ2 (some e) else σ2
      | AttemptResult.connectedOk c k =>
        publish
          { σ1 with conn := some c, comm := some k,
                    trace := σ.trace ++
                      [Event.dial σ1.attempts σ.cfg.SSHPort true,
                       Event.logLine "TCP connection made. Attempting SSH handshake.",
                       Event.handshake c σ.cfg.SSHUsername none,
                       Event.logLine "Connected to SSH!"] }
          none

/-! ## The wait loop (lines 101-125) and the exits of `Run` -/

/-- The deferred `connectQuit <- true` (lines 47-49), then the return of `a`. -/
def deferredQuit (σ : Sys) (a : StepAction) : Sys :=
  match chanSend 1 σ.connectQuit true with
  | some buf =>
      { σ with connectQuit := buf, main := Main.returned a,
               trace := σ.trace ++ [Event.quit] }
  | none => { σ with main := Main.returning a }

/-- The three statements `state["error"] = err; ui.Error(err.Error()); return
multistep.ActionHalt` shared by lines 31-33, 107-109 and 116-118, up to the
return. -/
def recordError (σ : Sys) (msg : String) : Sys :=
  { σ with state := σ.state.set "error" (Value.err msg),
           trace := σ.trace ++ [Event.stateSet "error" (Value.err msg), Event.uiError msg] }

/-- The case `err := <-connected` (lines 104-113), with lines 128-130 after the
`break ConnectWaitLoop`.  Not ready when the channel is empty. -/
def onResult (σ : Sys) : Sys :=
  match chanRecv σ.connected with
  | none => σ
  | some (some e, rest) =>
      deferredQuit (recordError { σ with connected := rest } ("Error connecting to SSH: " ++ e))
        StepAction.ActionHalt
  | some (none, rest) =>
      deferredQuit
        { σ with connected := rest,
                 state := σ.state.set "communicator" (Value.comm σ.comm),
                 trace := σ.trace ++ [Event.stateSet "communicator" (Value.comm σ.comm)] }
        StepAction.ActionContinue

/-- The case `<-timeout` (lines 114-118). -/
def onTimeout (σ : Sys) : Sys :=
  deferredQuit (recordError σ "Timeout waiting for SSH to become available.")
    StepAction.ActionHalt

/-- The case `<-time.After(1 * time.Second)` (lines 119-123). -/
def onTick (σ : Sys) : Sys :=
  match σ.state.get StateCancelled with
  | some _ =>
      deferredQuit
        { σ with trace := σ.trace ++
                   [Event.logLine "Interrupt detected, quitting waiting for SSH."] }
        StepAction.ActionHalt
  | none => σ

/-- One move of `Run` chosen by `body`, according to where `Run` stands. -/
def mainMove (body : Sys → Sys) (σ : Sys) : Sys :=
  match σ.main with
  | Main.waiting => body σ
  | Main.returning a => deferredQuit σ a
  | Main.returned _ => σ

/-- The transition function. -/
def step (σ : Sys) : Step → Sys
  | Step.attempt r => attemptIter σ r
  | Step.result => mainMove onResult σ
  | Step.timeout => mainMove onTimeout σ
  | Step.tick => mainMove onTick σ
  | Step.cancel => { σ with state := σ.state.set StateCancelled (Value.bool true) }

/-- Runs a schedule. -/
def exec (σ : Sys) (sched : List Step) : Sys :=
  sched.foldl step σ

/-! ## `Run` and `Cleanup` -/

/-- Lines 20-99 of `Run`: the type assertions on the state bag (a failed one
panics: `none`), the keychain, and, when the key is accepted, the channels and
the goroutine.  `addPEMKey` is `SimpleKeychain.AddPEMKey`, giving the error it
returns, if any. -/
def RunStart (addPEMKey : String → Option String) (s : stepConnectSSH)
    (state : StateBag) : Option Sys :=
  match state.get "config", state.get "privateKey", state.get "ui" with
  | some (Value.config cfg), some (Value.str privateKey), some Value.ui =>
    let σ0 : Sys :=
      { cfg := cfg, conn := s.conn, comm := none, connected := [], connectQuit := [],
        attempts := 0, handshakeAttempts := 0, worker := Worker.absent,
        state := state, main := Main.waiting, trace := [] }
    match addPEMKey privateKey with
    | some e =>
        some { recordError σ0 ("Error setting up SSH config: " ++ e) with
                 main := Main.returned StepAction.ActionHalt }
    | none =>
        some { σ0 with worker := Worker.looping,
                       trace := [Event.uiSay "Connecting to the droplet via SSH..."] }
  | _, _, _ => none

/-- The method `Run`, under a schedule of the goroutine, of the timers and of
the runner. -/
def Run (addPEMKey : String → Option String) (s : stepConnectSSH)
    (state : StateBag) (sched : List Step) : Option Sys :=
  (RunStart addPEMKey s state).map (fun σ => exec σ sched)

/-- The method `Cleanup` (lines 133-137): the receiver afterwards and the
`Close` calls made. -/
def Cleanup (s : stepConnectSSH) : stepConnectSSH × List Event :=
  match s.conn with
  | some c => (s, [Event.close c])
  | none => (s, [])

/-! ## The wait loop on a clock

`ConnectWaitLoop` when nothing arrives on `connected`.  Time is counted in
nanoseconds from line 99, where the timeout timer is armed once: it fires at
`T`.  The tick timer is armed anew by `time.After(1 * time.Second)` each time
the `select` of line 103 is entered, and fires one second after that.  The
instant at which a pass enters its `select` is an input: `lags` gives, pass by
pass, the time that goes by between the previous wake-up (line 99 for the first
pass) and the arming of the tick timer.  The runner writes the cancellation
marker at `c`.  When both timers are due at the same instant Go picks either
case: `tie` says whether the timeout case wins. -/

/-- The runner has written the marker by time `t`. -/
def markAt (c t : Nat) (σ : Sys) : Sys :=
  if c ≤ t then step σ Step.cancel else σ

/-- The wait loop from the wake-up at time `now`, one pass through the `select`
for each element of `lags`; gives the state reached and the time when it was
reached.  A pass that enters its `select` after `T` finds the timeout channel
ready and takes it at once. -/
def waitLoopAt (T c : Nat) (tie : Bool) : List Nat → Nat → Sys → Sys × Nat
  | [], now, σ => (σ, now)
  | lag :: lags, now, σ =>
    if σ.main ≠ Main.waiting then (σ, now)
    else if T < now + lag + 1 * Second ∨ (T = now + lag + 1 * Second ∧ tie = true) then
      (step (markAt c (max T (now + lag)) σ) Step.timeout, max T (now + lag))
    else
      waitLoopAt T c tie lags (now + lag + 1 * Second)
        (step (markAt c (now + lag + 1 * Second) σ) Step.tick)

/-- Lines 20-125 of `Run` on the clock: the key is checked, then the wait loop
runs from time 0 with the timeout `config.SSHTimeout`, the goroutine sending
nothing. -/
def RunOnClock (addPEMKey : String → Option String) (s : stepConnectSSH)
    (state : StateBag) (c : Nat) (tie : Bool) (lags : List Nat) : Option (Sys × Nat) :=
  (RunStart addPEMKey s state).map (fun σ => waitLoopAt σ.cfg.SSHTimeout c tie lags 0 σ)

/-- The instant at which the tick of pass `k` fires when no earlier pass leaves
the loop: each pass adds its lag and the second of its timer. -/
def tickTime : List Nat → Nat → Nat
  | _, 0 => 0
  | [], _ + 1 => 0
  | lag :: lags, k + 1 => lag + 1 * Second + tickTime lags k

/-! ## Observations on a trace -/

/-- Number of writes `state[k] = ...` in a trace. -/
def writesTo (k : String) (tr : List Event) : Nat :=
  (tr.filter (fun e => match e with
    | Event.stateSet k1 _ => k1 == k
    | _ => false)).length

/-- Number of `net.DialTimeout` calls in a trace. -/
def dials (tr : List Event) : Nat :=
  (tr.filter (fun e => match e with
    | Event.dial _ _ _ => true
    | _ => false)).length

/-- Number of `ssh.New` calls of a trace that returned an error: the attempts
whose dial succeeded and whose handshake failed. -/
def failedHandshakes (tr : List Event) : Nat :=
  (tr.filter (fun e => match e with
    | Event.handshake _ _ (some _) => true
    | _ => false)).length

/-- The values sent on `connected` in a trace. -/
def published (tr : List Event) : List (Option String) :=
  tr.filterMap (fun e => match e with
    | Event.publish v => some v
    | _ => none)

/-- The connections on which `Close` was called in a trace. -/
def closes (tr : List Event) : List Conn :=
  tr.filterMap (fun e => match e with
    | Event.close c => some c
    | _ => none)

/-- The cancellation branch (lines 120-123) was taken in a trace: its log line
is there. -/
def interrupted (tr : List Event) : Bool :=
  tr.any (fun e => match e with
    | Event.logLine m => m == "Interrupt detected, quitting waiting for SSH."
    | _ => false)

/-! ## Observations on a schedule -/

/-- A move that leaves the attempt loop running when its budget allows: a tick,
or an iteration whose dial or handshake fails. -/
def Step.retries : Step → Bool
  | Step.attempt (AttemptResult.dialError _) => true
  | Step.attempt (AttemptResult.handshakeError _ _) => true
  | Step.tick => true
  | _ => false

/-- Number of iterations in a schedule. -/
def attemptsIn (sched : List Step) : Nat :=
  (sched.filter (fun x => match x with
    | Step.attempt _ => true
    | _ => false)).length

/-- Number of iterations in a schedule whose dial succeeds and whose handshake
fails. -/
def failuresIn (sched : List Step) : Nat :=
  (sched.filter (fun x => match x with
    | Step.attempt (AttemptResult.handshakeError _ _) => true
    | _ => false)).length

/-- A move that is not taken by `Run` out of its wait loop: an iteration of the
goroutine or a tick. -/
def Step.waits : Step → Bool
  | Step.attempt _ => true
  | Step.tick => true
  | _ => false

/-! ## The invariant of a run -/

/-- The messages that `Run` stores under `state["error"]`. -/
def terminalMessage (msg : String) : Prop :=
  (∃ e, msg = "Error setting up SSH config: " ++ e) ∨
  (∃ e, msg = "Error connecting to SSH: " ++ e) ∨
  msg = "Timeout waiting for SSH to become available."

/-- What holds of every state that `Run` reaches. -/
structure Inv (σ : Sys) : Prop where
  sendFree : ∀ v, σ.worker ≠ Worker.sending v
  exitFree : ∀ a, σ.main ≠ Main.returning a
  countDials : σ.attempts = dials σ.trace
  countFails : σ.handshakeAttempts = failedHandshakes σ.trace
  quiet : σ.worker ≠ Worker.done → σ.connected = [] ∧ published σ.trace = []
  budget : σ.worker = Worker.looping → σ.handshakeAttempts ≤ 5
  sent : σ.worker = Worker.done →
    ∃ v, published σ.trace = [v] ∧
      (σ.connected = [v] ∨ (σ.connected = [] ∧ σ.main ≠ Main.waiting)) ∧
      (v = none → σ.handshakeAttempts ≤ 5) ∧ (∀ e, v = some e → σ.handshakeAttempts = 6)
  waits : σ.main = Main.waiting →
    σ.connectQuit = [] ∧ σ.worker ≠ Worker.stopped ∧ σ.worker ≠ Worker.absent ∧
      writesTo "error" σ.trace = 0 ∧ writesTo "communicator" σ.trace = 0 ∧
      interrupted σ.trace = false
  quits : ∀ a, σ.main = Main.returned a →
    ((σ.worker = Worker.absent ∨ σ.worker = Worker.stopped) ∧ σ.connectQuit = []) ∨
    ((σ.worker = Worker.looping ∨ σ.worker = Worker.done) ∧ σ.connectQuit = [true])
  halts : σ.main = Main.returned StepAction.ActionHalt →
    writesTo "communicator" σ.trace = 0 ∧
    ((interrupted σ.trace = true ∧ writesTo "error" σ.trace = 0) ∨
     (interrupted σ.trace = false ∧ writesTo "error" σ.trace = 1 ∧
       ∃ msg, σ.state.get "error" = some (Value.err msg) ∧ Event.uiError msg ∈ σ.trace ∧
         terminalMessage msg))
  continues : σ.main = Main.returned StepAction.ActionContinue →
    writesTo "error" σ.trace = 0 ∧ writesTo "communicator" σ.trace = 1 ∧
      interrupted σ.trace = false ∧ published σ.trace = [none]

/-- What holds along a run in which every dial fails and nobody cancels, the
state bag having had `c0` under `"communicator"` at the start. -/
structure Silent (c0 : Option Value) (σ : Sys) : Prop where
  empty : σ.connected = []
  unsent : published σ.trace = []
  work : σ.worker = Worker.looping ∨ σ.worker = Worker.stopped
  clear : σ.state.get StateCancelled = none
  unset : writesTo "communicator" σ.trace = 0 ∧ σ.state.get "communicator" = c0
  exit : (σ.main = Main.waiting ∧ σ.connectQuit = [] ∧ writesTo "error" σ.trace = 0) ∨
    (σ.main = Main.returned StepAction.ActionHalt ∧
      σ.state.get "error" =
        some (Value.err "Timeout waiting for SSH to become available.") ∧
      writesTo "error" σ.trace = 1)

/-- Every value sent on `connected` is what some call of `ssh.New` returned as
its error. -/
def Backed (σ : Sys) : Prop :=
  ∀ v ∈ published σ.trace, ∃ c u, Event.handshake c u v ∈ σ.trace

/-! ## Sample inputs -/

/-- A keychain that rejects the empty key and accepts every other one. -/
def sampleAddPEMKey (key : String) : Option String :=
  if key = "" then some "no key found" else none

/-- A configuration with a timeout of 60 seconds. -/
def sampleConfig : config :=
  { SSHUsername := "root", SSHPort := 22, SSHTimeout := 60 * Second }

/-- A state bag as the earlier steps of the builder leave it. -/
def sampleState : StateBag :=
  [("config", Value.config sampleConfig), ("privateKey", Value.str "PEM"), ("ui", Value.ui)]

/-- The same state bag with an empty private key. -/
def sampleStateNoKey : StateBag :=
  [("config", Value.config sampleConfig), ("privateKey", Value.str ""), ("ui", Value.ui)]

/-- The same state bag with a timeout of half a second. -/
def sampleStateShort : StateBag :=
  [("config", Value.config { sampleConfig with SSHTimeout := 500 * Millisecond }),
   ("privateKey", Value.str "PEM"), ("ui", Value.ui)]

/-- The same state bag with a timeout of 3.001 seconds. -/
def sampleStateNearTick : StateBag :=
  [("config", Value.config { sampleConfig with SSHTimeout := 3001 * Millisecond }),
   ("privateKey", Value.str "PEM"), ("ui", Value.ui)]

/-- Passes of the wait loop that each take 0.7 ms to reach their `select`. -/
def sampleLags : List Nat :=
  [700000, 700000, 700000, 700000, 700000]

/-- Five iterations whose handshake fails, with two ticks in between. -/
def sampleFiveFailures : List Step :=
  [Step.attempt (AttemptResult.handshakeError 1 "auth failed"), Step.tick,
   Step.attempt (AttemptResult.handshakeError 2 "auth failed"),
   Step.attempt (AttemptResult.handshakeError 3 "auth failed"), Step.tick,
   Step.attempt (AttemptResult.handshakeError 4 "auth failed"),
   Step.attempt (AttemptResult.handshakeError 5 "auth failed")]

/-- Four iterations whose handshake fails, after two failed dials. -/
def sampleFourFailures : List Step :=
  [Step.attempt (AttemptResult.dialError "refused"),
   Step.attempt (AttemptResult.dialError "refused"), Step.tick,
   Step.attempt (AttemptResult.handshakeError 1 "auth failed"),
   Step.attempt (AttemptResult.handshakeError 2 "auth failed"), Step.tick,
   Step.attempt (AttemptResult.handshakeError 3 "auth failed"),
   Step.attempt (AttemptResult.handshakeError 4 "auth failed")]

/-- The state that `Run` on the sample inputs is in after one failed dial and
the timeout: `Run` has returned and its stop signal is in `connectQuit`. -/
def sampleReturned : Sys :=
  { cfg := sampleConfig, conn := none, comm := none, connected := [], connectQuit := [true],
    attempts := 1, handshakeAttempts := 0, worker := Worker.looping,
    state := sampleState.set "error"
      (Value.err "Timeout waiting for SSH to become available."),
    main := Main.returned StepAction.ActionHalt,
    trace := [Event.uiSay "Connecting to the droplet via SSH...",
              Event.dial 1 22 false,
              Event.stateSet "error"
                (Value.err "Timeout waiting for SSH to become available."),
              Event.uiError "Timeout waiting for SSH to become available.",
              Event.quit] }

/-- The state in which `Run` on the sample inputs enters its wait loop. -/
def sampleStarted : Sys :=
  { cfg := sampleConfig, conn := none, comm := none, connected := [], connectQuit := [],
    attempts := 0, handshakeAttempts := 0, worker := Worker.looping,
    state := sampleState, main := Main.waiting,
    trace := [Event.uiSay "Connecting to the droplet via SSH..."] }

/-! ## Basic facts -/

theorem lookup_filter_ne (k k1 : String) (st : StateBag) :
    List.lookup k1 (st.filter (fun p => p.1 != k)) = if k1 = k then none else List.lookup k1 st := by
  induction st with
  | nil => simp
  | cons p st ih =>
    obtain ⟨a, b⟩ := p
    by_cases hak : a = k
    · subst hak
      by_cases h1 : k1 = a
      · subst h1
        simp [List.filter_cons, ih]
      · have : (k1 == a) = false := by simpa using h1
        simp [List.filter_cons, ih, List.lookup_cons, this, h1]
    · by_cases h1 : k1 = k
      · subst h1
        have : (k1 == a) = false := by simpa using (Ne.symm hak)
        simp [List.filter_cons, hak, ih, List.lookup_cons, this]
      · simp only [List.filter_cons, bne_iff_ne, ne_eq, hak, not_false_eq_true, decide_True,
          if_true, List.lookup_cons, ih, h1, if_false]

theorem get_set (st : StateBag) (k k1 : String) (v : Value) :
    (st.set k v).get k1 = if k1 = k then some v else st.get k1 := by
  unfold StateBag.set StateBag.get
  by_cases h : k1 = k
  · subst h; simp [List.lookup_cons]
  · have : (k1 == k) = false := by simpa using h
    simp [List.lookup_cons, this, lookup_filter_ne, h]

theorem exec_nil (σ : Sys) : exec σ [] = σ := rfl

theorem exec_cons (σ : Sys) (x : Step) (xs : List Step) :
    exec σ (x :: xs) = exec (step σ x) xs := rfl

theorem exec_append (σ : Sys) (xs ys : List Step) :
    exec σ (xs ++ ys) = exec (exec σ xs) ys := by
  simp [exec, List.foldl_append]

/-! ## Observations, event by event -/

@[simp]
theorem writesTo_nil (k : String) : writesTo k [] = 0 := rfl

@[simp]
theorem writesTo_cons (k : String) (e : Event) (tr : List Event) :
    writesTo k (e :: tr) =
      (match e with
        | Event.stateSet k1 _ => if k1 = k then 1 else 0
        | _ => 0) + writesTo k tr := by
  cases e <;> simp [writesTo, List.filter_cons]
  split <;> simp_all
  omega

@[simp]
theorem writesTo_append (k : String) (tr1 tr2 : List Event) :
    writesTo k (tr1 ++ tr2) = writesTo k tr1 + writesTo k tr2 := by
  simp [writesTo, List.filter_append]

@[simp]
theorem dials_nil : dials [] = 0 := rfl

@[simp]
theorem dials_cons (e : Event) (tr : List Event) :
    dials (e :: tr) =
      (match e with
        | Event.dial _ _ _ => 1
        | _ => 0) + dials tr := by
  cases e <;> simp [dials, List.filter_cons]
  omega

@[simp]
theorem dials_append (tr1 tr2 : List Event) : dials (tr1 ++ tr2) = dials tr1 + dials tr2 := by
  simp [dials, List.filter_append]

@[simp]
theorem failedHandshakes_nil : failedHandshakes [] = 0 := rfl

@[simp]
theorem failedHandshakes_cons (e : Event) (tr : List Event) :
    failedHandshakes (e :: tr) =
      (match e with
        | Event.handshake _ _ (some _) => 1
        | _ => 0) + failedHandshakes tr := by
  cases e with
  | handshake c u r =>
    cases r <;> simp [failedHandshakes, List.filter_cons]
    omega
  | _ => simp [failedHandshakes, List.filter_cons]

@[simp]
theorem failedHandshakes_append (tr1 tr2 : List Event) :
    failedHandshakes (tr1 ++ tr2) = failedHandshakes tr1 + failedHandshakes tr2 := by
  simp [failedHandshakes, List.filter_append]

@[simp]
theorem published_nil : published [] = [] := rfl

@[simp]
theorem published_cons (e : Event) (tr : List Event) :
    published (e :: tr) =
      (match e with
        | Event.publish v => [v]
        | _ => []) ++ published tr := by
  cases e <;> simp [published, List.filterMap_cons]

@[simp]
theorem published_append (tr1 tr2 : List Event) :
    published (tr1 ++ tr2) = published tr1 ++ published tr2 := by
  simp [published, List.filterMap_append]

@[simp]
theorem interrupted_nil : interrupted [] = false := rfl

@[simp]
theorem interrupted_cons (e : Event) (tr : List Event) :
    interrupted (e :: tr) =
      ((match e with
        | Event.logLine m => m == "Interrupt detected, quitting waiting for SSH."
        | _ => false) || interrupted tr) := by
  cases e <;> simp [interrupted]

@[simp]
theorem interrupted_append (tr1 tr2 : List Event) :
    interrupted (tr1 ++ tr2) = (interrupted tr1 || interrupted tr2) := by
  simp [interrupted, List.any_append]

/-! ## One iteration of the attempt loop, case by case -/

theorem attemptIter_quit (σ : Sys) (r : AttemptResult) (b : Bool) (rest : List Bool)
    (hw : σ.worker = Worker.looping) (hq : σ.connectQuit = b :: rest) :
    attemptIter σ r = { σ with connectQuit := rest, worker := Worker.stopped } := by
  simp [attemptIter, hw, hq, chanRecv]

theorem attemptIter_dialError (σ : Sys) (e : String)
    (hw : σ.worker = Worker.looping) (hq : σ.connectQuit = []) :
    attemptIter σ (AttemptResult.dialError e) =
      { σ with attempts := σ.attempts + 1, conn := none,
               trace := σ.trace ++ [Event.dial (σ.attempts + 1) σ.cfg.SSHPort false] } := by
  simp [attemptIter, hw, hq, chanRecv]

theorem attemptIter_handshakeError_retry (σ : Sys) (c : Conn) (e : String)
    (hw : σ.worker = Worker.looping) (hq : σ.connectQuit = [])
    (hb : σ.handshakeAttempts + 1 ≤ 5) :
    attemptIter σ (AttemptResult.handshakeError c e) =
      { σ with attempts := σ.attempts + 1, conn := some c, comm := none,
               handshakeAttempts := σ.handshakeAttempts + 1,
               trace := σ.trace ++
                 [Event.dial (σ.attempts + 1) σ.cfg.SSHPort true,
                  Event.logLine "TCP connection made. Attempting SSH handshake.",
                  Event.handshake c σ.cfg.SSHUsername (some e),
                  Event.logf "SSH handshake error: %s" [e]] } := by
  have : ¬ (σ.handshakeAttempts + 1 > 5) := by omega
  simp only [attemptIter, hw, hq, chanRecv, this, if_false]

theorem attemptIter_handshakeError_exhausted (σ : Sys) (c : Conn) (e : String)
    (hw : σ.worker = Worker.looping) (hq : σ.connectQuit = [])
    (hb : σ.handshakeAttempts + 1 > 5) (hc : σ.connected = []) :
    attemptIter σ (AttemptResult.handshakeError c e) =
      { σ with attempts := σ.attempts + 1, conn := some c, comm := none,
               handshakeAttempts := σ.handshakeAttempts + 1,
               connected := [some e], worker := Worker.done,
               trace := σ.trace ++
                 [Event.dial (σ.attempts + 1) σ.cfg.SSHPort true,
                  Event.logLine "TCP connection made. Attempting SSH handshake.",
                  Event.handshake c σ.cfg.SSHUsername (some e),
                  Event.logf "SSH handshake error: %s" [e],
                  Event.publish (some e)] } := by
  simp only [attemptIter, hw, hq, chanRecv, hb, if_true, publish, chanSend, hc]
  simp

theorem attemptIter_connectedOk (σ : Sys) (c : Conn) (k : Communicator)
    (hw : σ.worker = Worker.looping) (hq : σ.connectQuit = []) (hc : σ.connected = []) :
    attemptIter σ (AttemptResult.connectedOk c k) =
      { σ with attempts := σ.attempts + 1, conn := some c, comm := some k,
               connected := [none], worker := Worker.done,
               trace := σ.trace ++
                 [Event.dial (σ.attempts + 1) σ.cfg.SSHPort true,
                  Event.logLine "TCP connection made. Attempting SSH handshake.",
                  Event.handshake c σ.cfg.SSHUsername none,
                  Event.logLine "Connected to SSH!",
                  Event.publish none] } := by
  simp only [attemptIter, hw, hq, chanRecv, publish, chanSend, hc]
  simp

theorem attemptIter_idle (σ : Sys) (r : AttemptResult)
    (hw : σ.worker = Worker.absent ∨ σ.worker = Worker.stopped ∨ σ.worker = Worker.done) :
    attemptIter σ r = σ := by
  rcases hw with hw | hw | hw <;> simp [attemptIter, hw]

/-! ## The moves of `Run`, case by case -/

theorem deferredQuit_free (σ : Sys) (a : StepAction) (hq : σ.connectQuit = []) :
    deferredQuit σ a =
      { σ with connectQuit := [true], main := Main.returned a,
               trace := σ.trace ++ [Event.quit] } := by
  simp [deferredQuit, chanSend, hq]

theorem step_result_empty (σ : Sys) (hm : σ.main = Main.waiting) (hc : σ.connected = []) :
    step σ Step.result = σ := by
  simp [step, mainMove, hm, onResult, chanRecv, hc]

theorem step_result_error (σ : Sys) (e : String) (rest : List (Option String))
    (hm : σ.main = Main.waiting) (hc : σ.connected = some e :: rest)
    (hq : σ.connectQuit = []) :
    step σ Step.result =
      { σ with connected := rest, connectQuit := [true],
               main := Main.returned StepAction.ActionHalt,
               state := σ.state.set "error" (Value.err ("Error connecting to SSH: " ++ e)),
               trace := σ.trace ++
                 [Event.stateSet "error" (Value.err ("Error connecting to SSH: " ++ e)),
                  Event.uiError ("Error connecting to SSH: " ++ e), Event.quit] } := by
  simp [step, mainMove, hm, onResult, chanRecv, hc, deferredQuit, chanSend, hq, recordError]

theorem step_result_ok (σ : Sys) (rest : List (Option String))
    (hm : σ.main = Main.waiting) (hc : σ.connected = none :: rest)
    (hq : σ.connectQuit = []) :
    step σ Step.result =
      { σ with connected := rest, connectQuit := [true],
               main := Main.returned StepAction.ActionContinue,
               state := σ.state.set "communicator" (Value.comm σ.comm),
               trace := σ.trace ++
                 [Event.stateSet "communicator" (Value.comm σ.comm), Event.quit] } := by
  simp [step, mainMove, hm, onResult, chanRecv, hc, deferredQuit, chanSend, hq]

theorem step_timeout_waiting (σ : Sys) (hm : σ.main = Main.waiting) (hq : σ.connectQuit = []) :
    step σ Step.timeout =
      { σ with connectQuit := [true], main := Main.returned StepAction.ActionHalt,
               state := σ.state.set "error"
                 (Value.err "Timeout waiting for SSH to become available."),
               trace := σ.trace ++
                 [Event.stateSet "error"
                    (Value.err "Timeout waiting for SSH to become available."),
                  Event.uiError "Timeout waiting for SSH to become available.",
                  Event.quit] } := by
  simp [step, mainMove, hm, onTimeout, deferredQuit, chanSend, hq, recordError]

theorem step_tick_clear (σ : Sys) (hm : σ.main = Main.waiting)
    (hs : σ.state.get StateCancelled = none) :
    step σ Step.tick = σ := by
  simp [step, mainMove, hm, onTick, hs]

theorem step_tick_cancelled (σ : Sys) (v : Value) (hm : σ.main = Main.waiting)
    (hs : σ.state.get StateCancelled = some v) (hq : σ.connectQuit = []) :
    step σ Step.tick =
      { σ with connectQuit := [true], main := Main.returned StepAction.ActionHalt,
               trace := σ.trace ++
                 [Event.logLine "Interrupt detected, quitting waiting for SSH.",
                  Event.quit] } := by
  simp [step, mainMove, hm, onTick, hs, deferredQuit, chanSend, hq]

theorem mainMove_returned (body : Sys → Sys) (σ : Sys) (a : StepAction)
    (hm : σ.main = Main.returned a) : mainMove body σ = σ := by
  simp [mainMove, hm]

theorem step_cancel (σ : Sys) :
    step σ Step.cancel = { σ with state := σ.state.set StateCancelled (Value.bool true) } := rfl

/-! ## The invariant is kept -/

theorem Inv_attemptIter (σ : Sys) (r : AttemptResult) (h : Inv σ) : Inv (attemptIter σ r) := by
  have h0 := h
  obtain ⟨h1, h2, h3, h4, h5, h6, h7, h8, h9, h10, h11⟩ := h
  cases hw : σ.worker with
  | absent => rw [attemptIter_idle σ r (by simp [hw])]; exact h0
  | stopped => rw [attemptIter_idle σ r (by simp [hw])]; exact h0
  | done => rw [attemptIter_idle σ r (by simp [hw])]; exact h0
  | sending v => exact absurd hw (h1 v)
  | looping =>
    obtain ⟨hc, hp⟩ := h5 (by simp [hw])
    have hb := h6 hw
    cases hm : σ.main with
    | returning a => exact absurd hm (h2 a)
    | waiting =>
      obtain ⟨q1, q2, q3, q4, q5, q6⟩ := h8 hm
      rcases r with e | ⟨c, e⟩ | ⟨c, k⟩
      · rw [attemptIter_dialError σ e hw q1]
        constructor <;> (try simp [hw, hm, hc, hp, hb, q1, q4, q5, q6, ← h3, ← h4])
      · by_cases hlt : σ.handshakeAttempts + 1 > 5
        · rw [attemptIter_handshakeError_exhausted σ c e hw q1 hlt hc]
          constructor <;> (try simp [hw, hm, hc, hp, hb, q1, q4, q5, q6, ← h3, ← h4])
          omega
        · rw [attemptIter_handshakeError_retry σ c e hw q1 (by omega)]
          constructor <;> (try simp [hw, hm, hc, hp, hb, q1, q4, q5, q6, ← h3, ← h4])
          omega
      · rw [attemptIter_connectedOk σ c k hw q1 hc]
        constructor <;> (try simp [hw, hm, hc, hp, hb, q1, q4, q5, q6, ← h3, ← h4])
    | returned a =>
      rcases h9 a hm with ⟨hx, _⟩ | ⟨_, hq⟩
      · rcases hx with hx | hx <;> simp [hw] at hx
      · rw [attemptIter_quit σ r true [] hw hq]
        constructor <;> (try simp [hw, hm, hc, hp, hb, ← h3, ← h4])
        · intro hh; exact h10 (by rw [hm, hh])
        · intro hh
          have := h11 (by rw [hm, hh])
          simp [hp] at this

theorem worker_live (σ : Sys) (h1 : ∀ v, σ.worker ≠ Worker.sending v)
    (h2 : σ.worker ≠ Worker.stopped) (h3 : σ.worker ≠ Worker.absent) :
    σ.worker = Worker.looping ∨ σ.worker = Worker.done := by
  cases hw : σ.worker with
  | absent => exact absurd hw h3
  | stopped => exact absurd hw h2
  | sending v => exact absurd hw (h1 v)
  | looping => simp
  | done => simp

theorem Inv_step (σ : Sys) (x : Step) (h : Inv σ) : Inv (step σ x) := by
  cases x with
  | attempt r => exact Inv_attemptIter σ r h
  | cancel =>
    obtain ⟨h1, h2, h3, h4, h5, h6, h7, h8, h9, h10, h11⟩ := h
    rw [step_cancel]
    refine ⟨h1, h2, h3, h4, h5, h6, h7, h8, h9, ?_, h11⟩
    intro hh
    have := h10 hh
    simpa [get_set, StateCancelled] using this
  | result =>
    have h0 := h
    obtain ⟨h1, h2, h3, h4, h5, h6, h7, h8, h9, h10, h11⟩ := h
    cases hm : σ.main with
    | returning a => exact absurd hm (h2 a)
    | returned a => simpa [step, mainMove, hm] using h0
    | waiting =>
      obtain ⟨q1, q2, q3, q4, q5, q6⟩ := h8 hm
      cases hc : σ.connected with
      | nil => rw [step_result_empty σ hm hc]; exact h0
      | cons v rest =>
        have hd : σ.worker = Worker.done := by
          by_contra hn
          have := (h5 hn).1
          simp [hc] at this
        obtain ⟨v1, p1, p2, p3, p4⟩ := h7 hd
        have hv : v1 = v ∧ rest = [] := by
          rcases p2 with p2 | p2 <;> simp_all
        obtain ⟨rfl, rfl⟩ := hv
        cases v1 with
        | none =>
          rw [step_result_ok σ [] hm hc q1]
          constructor <;>
            (try simp [hm, hd, q1, q4, q5, q6, p1, ← h3, ← h4, get_set, terminalMessage])
          · simpa using p3
        | some e =>
          rw [step_result_error σ e [] hm hc q1]
          constructor <;>
            (try simp [hm, hd, q1, q4, q5, q6, p1, ← h3, ← h4, get_set, terminalMessage])
          · simpa using p4
  | timeout =>
    have h0 := h
    obtain ⟨h1, h2, h3, h4, h5, h6, h7, h8, h9, h10, h11⟩ := h
    cases hm : σ.main with
    | returning a => exact absurd hm (h2 a)
    | returned a => simpa [step, mainMove, hm] using h0
    | waiting =>
      obtain ⟨q1, q2, q3, q4, q5, q6⟩ := h8 hm
      rw [step_timeout_waiting σ hm q1]
      refine ⟨h1, ?exitFree, ?countDials, ?countFails, ?quiet, h6, ?sent, ?waits, ?quits,
        ?halts, ?continues⟩
      case exitFree => simp
      case countDials => simpa using h3
      case countFails => simpa using h4
      case quiet => intro hd; simpa using h5 hd
      case sent =>
        intro hd
        obtain ⟨v, p1, p2, p3⟩ := h7 hd
        refine ⟨v, by simpa using p1, ?_, p3⟩
        rcases p2 with p2 | p2
        · exact Or.inl p2
        · exact Or.inr ⟨p2.1, by simp⟩
      case waits => simp
      case quits => simpa using worker_live σ h1 q2 q3
      case halts => simp [q4, q5, q6, get_set, terminalMessage]
      case continues => simp
  | tick =>
    have h0 := h
    obtain ⟨h1, h2, h3, h4, h5, h6, h7, h8, h9, h10, h11⟩ := h
    cases hm : σ.main with
    | returning a => exact absurd hm (h2 a)
    | returned a => simpa [step, mainMove, hm] using h0
    | waiting =>
      obtain ⟨q1, q2, q3, q4, q5, q6⟩ := h8 hm
      cases hs : σ.state.get StateCancelled with
      | none => rw [step_tick_clear σ hm hs]; exact h0
      | some v =>
        rw [step_tick_cancelled σ v hm hs q1]
        refine ⟨h1, ?exitFree, ?countDials, ?countFails, ?quiet, h6, ?sent, ?waits, ?quits,
          ?halts, ?continues⟩
        case exitFree => simp
        case countDials => simpa using h3
        case countFails => simpa using h4
        case quiet => intro hd; simpa using h5 hd
        case sent =>
          intro hd
          obtain ⟨v, p1, p2, p3⟩ := h7 hd
          refine ⟨v, by simpa using p1, ?_, p3⟩
          rcases p2 with p2 | p2
          · exact Or.inl p2
          · exact Or.inr ⟨p2.1, by simp⟩
        case waits => simp
        case quits => simpa using worker_live σ h1 q2 q3
        case halts => simp [q4, q5, q6]
        case continues => simp

theorem Inv_exec (σ : Sys) (sched : List Step) (h : Inv σ) : Inv (exec σ sched) := by
  induction sched generalizing σ with
  | nil => exact h
  | cons x xs ih => exact ih (step σ x) (Inv_step σ x h)

/-! ## The start of `Run` -/

theorem RunStart_accepted (addPEMKey : String → Option String) (s : stepConnectSSH)
    (state : StateBag) (cfg : config) (key : String)
    (hc : state.get "config" = some (Value.config cfg))
    (hk : state.get "privateKey" = some (Value.str key))
    (hu : state.get "ui" = some Value.ui) (ha : addPEMKey key = none) :
    RunStart addPEMKey s state =
      some { cfg := cfg, conn := s.conn, comm := none, connected := [], connectQuit := [],
             attempts := 0, handshakeAttempts := 0, worker := Worker.looping,
             state := state, main := Main.waiting,
             trace := [Event.uiSay "Connecting to the droplet via SSH..."] } := by
  simp [RunStart, hc, hk, hu, ha]

theorem RunStart_rejected (addPEMKey : String → Option String) (s : stepConnectSSH)
    (state : StateBag) (cfg : config) (key e : String)
    (hc : state.get "config" = some (Value.config cfg))
    (hk : state.get "privateKey" = some (Value.str key))
    (hu : state.get "ui" = some Value.ui) (ha : addPEMKey key = some e) :
    RunStart addPEMKey s state =
      some { cfg := cfg, conn := s.conn, comm := none, connected := [], connectQuit := [],
             attempts := 0, handshakeAttempts := 0, worker := Worker.absent,
             state := state.set "error" (Value.err ("Error setting up SSH config: " ++ e)),
             main := Main.returned StepAction.ActionHalt,
             trace := [Event.stateSet "error"
                         (Value.err ("Error setting up SSH config: " ++ e)),
                       Event.uiError ("Error setting up SSH config: " ++ e)] } := by
  simp [RunStart, hc, hk, hu, ha, recordError]

theorem Inv_RunStart (addPEMKey : String → Option String) (s : stepConnectSSH)
    (state : StateBag) (σ : Sys) (h : RunStart addPEMKey s state = some σ) : Inv σ := by
  unfold RunStart at h
  split at h
  · rename_i cfg key hc hk hu
    split at h
    · rename_i e he
      simp only [Option.some.injEq] at h
      subst h
      constructor <;> simp [recordError, get_set, terminalMessage]
    · simp only [Option.some.injEq] at h
      subst h
      constructor <;> simp
  · simp at h

theorem Inv_Run (addPEMKey : String → Option String) (s : stepConnectSSH)
    (state : StateBag) (sched : List Step) (σ : Sys)
    (h : Run addPEMKey s state sched = some σ) : Inv σ := by
  unfold Run at h
  cases h0 : RunStart addPEMKey s state with
  | none => simp [h0] at h
  | some σ0 =>
    simp only [h0, Option.map_some', Option.some.injEq] at h
    subst h
    exact Inv_exec σ0 sched (Inv_RunStart addPEMKey s state σ0 h0)

/-! ## Schedules that keep the loop retrying -/

theorem attemptsIn_cons (x : Step) (xs : List Step) :
    attemptsIn (x :: xs) =
      (match x with
        | Step.attempt _ => 1
        | _ => 0) + attemptsIn xs := by
  cases x <;> simp [attemptsIn, List.filter_cons]
  omega

theorem failuresIn_cons (x : Step) (xs : List Step) :
    failuresIn (x :: xs) =
      (match x with
        | Step.attempt (AttemptResult.handshakeError _ _) => 1
        | _ => 0) + failuresIn xs := by
  cases x with
  | attempt r =>
    cases r <;> simp [failuresIn, List.filter_cons]
    omega
  | _ => simp [failuresIn, List.filter_cons]

theorem exec_retrying (pre : List Step) (σ : Sys)
    (hall : ∀ x ∈ pre, x.retries = true)
    (hw : σ.worker = Worker.looping) (hm : σ.main = Main.waiting)
    (hq : σ.connectQuit = []) (hs : σ.state.get StateCancelled = none)
    (hb : σ.handshakeAttempts + failuresIn pre ≤ 5) :
    ∃ conn comm tr,
      exec σ pre =
        { σ with attempts := σ.attempts + attemptsIn pre,
                 handshakeAttempts := σ.handshakeAttempts + failuresIn pre,
                 conn := conn, comm := comm, trace := σ.trace ++ tr } ∧
      dials tr = attemptsIn pre ∧ failedHandshakes tr = failuresIn pre ∧
      published tr = [] ∧ interrupted tr = false ∧ ∀ k, writesTo k tr = 0 := by
  induction pre generalizing σ with
  | nil => exact ⟨σ.conn, σ.comm, [], by simp [exec, attemptsIn, failuresIn], by simp [attemptsIn],
      by simp [failuresIn], by simp, by simp, by simp⟩
  | cons x xs ih =>
    have hx := hall x (by simp)
    have hxs : ∀ y ∈ xs, y.retries = true := fun y hy => hall y (by simp [hy])
    rw [failuresIn_cons] at hb
    rw [exec_cons, attemptsIn_cons, failuresIn_cons]
    cases x with
    | result => simp [Step.retries] at hx
    | timeout => simp [Step.retries] at hx
    | cancel => simp [Step.retries] at hx
    | tick =>
      rw [step_tick_clear σ hm hs]
      simpa using ih σ hxs hw hm hq hs (by simpa using hb)
    | attempt r =>
      cases r with
      | connectedOk c k => simp [Step.retries] at hx
      | dialError e =>
        simp only [step]
        have hstep := attemptIter_dialError σ e hw hq
        generalize attemptIter σ (AttemptResult.dialError e) = σ1 at hstep ⊢
        obtain ⟨conn, comm, tr, h1, h2, h3, h4, h5, h6⟩ :=
          ih σ1 hxs (by simp [hstep, hw]) (by simp [hstep, hm]) (by simp [hstep, hq])
            (by simp [hstep, hs]) (by simp [hstep]; simpa using hb)
        refine ⟨conn, comm, Event.dial (σ.attempts + 1) σ.cfg.SSHPort false :: tr,
          ?_, ?_, ?_, ?_, ?_, ?_⟩
        · rw [h1, hstep]; simp [Nat.add_assoc]
        · simp [h2]
        · simp [h3]
        · simp [h4]
        · simp [h5]
        · intro k; simp [h6]
      | handshakeError c e =>
        simp only [step]
        simp only at hb
        have hstep := attemptIter_handshakeError_retry σ c e hw hq (by omega)
        generalize attemptIter σ (AttemptResult.handshakeError c e) = σ1 at hstep ⊢
        obtain ⟨conn, comm, tr, h1, h2, h3, h4, h5, h6⟩ :=
          ih σ1 hxs (by simp [hstep, hw]) (by simp [hstep, hm]) (by simp [hstep, hq])
            (by simp [hstep, hs]) (by simp [hstep]; omega)
        refine ⟨conn, comm,
          [Event.dial (σ.attempts + 1) σ.cfg.SSHPort true,
           Event.logLine "TCP connection made. Attempting SSH handshake.",
           Event.handshake c σ.cfg.SSHUsername (some e),
           Event.logf "SSH handshake error: %s" [e]] ++ tr, ?_, ?_, ?_, ?_, ?_, ?_⟩
        · rw [h1, hstep]; simp [Nat.add_assoc]
        · simp [h2]
        · simp [h3]
        · simp [h4]
        · simp [h5]
        · intro k; simp [h6]

/-! ## After the return of `Run` without a goroutine -/

theorem set_set (st : StateBag) (k : String) (v : Value) :
    (st.set k v).set k v = st.set k v := by
  simp [StateBag.set, List.filter_cons, List.filter_filter]

theorem step_settled (σ : Sys) (x : Step) (a : StepAction)
    (hw : σ.worker = Worker.absent) (hm : σ.main = Main.returned a) :
    step σ x = σ ∨ step σ x = { σ with state := σ.state.set StateCancelled (Value.bool true) } := by
  cases x with
  | attempt r => left; exact attemptIter_idle σ r (Or.inl hw)
  | result => left; simp [step, mainMove_returned _ σ a hm]
  | timeout => left; simp [step, mainMove_returned _ σ a hm]
  | tick => left; simp [step, mainMove_returned _ σ a hm]
  | cancel => right; rfl

theorem exec_settled (sched : List Step) (σ : Sys) (a : StepAction)
    (hw : σ.worker = Worker.absent) (hm : σ.main = Main.returned a) :
    exec σ sched = σ ∨
      exec σ sched = { σ with state := σ.state.set StateCancelled (Value.bool true) } := by
  induction sched generalizing σ with
  | nil => left; rfl
  | cons x xs ih =>
    rw [exec_cons]
    rcases step_settled σ x a hw hm with h | h
    · rw [h]; exact ih σ hw hm
    · rw [h]
      rcases ih { σ with state := σ.state.set StateCancelled (Value.bool true) } hw hm with h1 | h1
      · right; exact h1
      · right; rw [h1]; simp [set_set]

/-! ## Runs in which every dial fails -/

theorem Silent_step (c0 : Option Value) (σ : Sys) (x : Step) (h : Silent c0 σ)
    (hd : ∀ r, x = Step.attempt r → ∃ e, r = AttemptResult.dialError e)
    (hn : x ≠ Step.cancel) :
    Silent c0 (step σ x) ∧
      ((step σ x).main = Main.waiting ↔ σ.main = Main.waiting ∧ x ≠ Step.timeout) := by
  obtain ⟨h1, h2, h3, h4, h5, h6⟩ := h
  cases x with
  | cancel => exact absurd rfl hn
  | attempt r =>
    obtain ⟨e, rfl⟩ := hd r rfl
    simp only [step]
    rcases h3 with hw | hw
    · cases hq : σ.connectQuit with
      | nil =>
        rw [attemptIter_dialError σ e hw hq]
        exact ⟨⟨h1, by simpa using h2, Or.inl hw, h4, by simpa using h5, by simpa using h6⟩,
          by simp⟩
      | cons b rest =>
        rw [attemptIter_quit σ (AttemptResult.dialError e) b rest hw hq]
        refine ⟨⟨h1, h2, Or.inr rfl, h4, h5, ?_⟩, by simp⟩
        rcases h6 with h6 | h6
        · simp [hq] at h6
        · exact Or.inr h6
    · rw [attemptIter_idle σ _ (Or.inr (Or.inl hw))]
      exact ⟨⟨h1, h2, Or.inr hw, h4, h5, h6⟩, by simp⟩
  | result =>
    rcases h6 with ⟨hm, hq, he⟩ | ⟨hm, he⟩
    · rw [step_result_empty σ hm h1]
      exact ⟨⟨h1, h2, h3, h4, h5, Or.inl ⟨hm, hq, he⟩⟩, by simp⟩
    · simp only [step, mainMove_returned _ σ _ hm]
      exact ⟨⟨h1, h2, h3, h4, h5, Or.inr ⟨hm, he⟩⟩, by simp⟩
  | tick =>
    rcases h6 with ⟨hm, hq, he⟩ | ⟨hm, he⟩
    · rw [step_tick_clear σ hm h4]
      exact ⟨⟨h1, h2, h3, h4, h5, Or.inl ⟨hm, hq, he⟩⟩, by simp⟩
    · simp only [step, mainMove_returned _ σ _ hm]
      exact ⟨⟨h1, h2, h3, h4, h5, Or.inr ⟨hm, he⟩⟩, by simp⟩
  | timeout =>
    rcases h6 with ⟨hm, hq, he⟩ | ⟨hm, he⟩
    · rw [step_timeout_waiting σ hm hq]
      refine ⟨⟨h1, by simpa using h2, h3, ?_, ?_, Or.inr ?_⟩, by simp⟩
      · simpa [get_set, StateCancelled] using h4
      · simpa [get_set] using h5
      · simp [get_set, he]
    · simp only [step, mainMove_returned _ σ _ hm]
      exact ⟨⟨h1, h2, h3, h4, h5, Or.inr ⟨hm, he⟩⟩, by simp [hm]⟩

theorem Silent_exec (c0 : Option Value) (sched : List Step) (σ : Sys) (h : Silent c0 σ)
    (hd : ∀ r, Step.attempt r ∈ sched → ∃ e, r = AttemptResult.dialError e)
    (hn : Step.cancel ∉ sched) :
    Silent c0 (exec σ sched) ∧
      ((exec σ sched).main = Main.waiting ↔ σ.main = Main.waiting ∧ Step.timeout ∉ sched) := by
  induction sched generalizing σ with
  | nil => exact ⟨h, by simp [exec]⟩
  | cons x xs ih =>
    rw [exec_cons]
    obtain ⟨k1, k2⟩ := Silent_step c0 σ x h
      (fun r hr => hd r (by simp [hr])) (fun hx => hn (by simp [hx]))
    obtain ⟨j1, j2⟩ := ih (step σ x) k1 (fun r hr => hd r (by simp [hr]))
      (fun hx => hn (by simp [hx]))
    refine ⟨j1, ?_⟩
    rw [j2, k2]
    simp only [List.mem_cons, not_or]
    constructor
    · rintro ⟨⟨a, b⟩, c⟩; exact ⟨a, fun hh => b hh.symm, c⟩
    · rintro ⟨a, b, c⟩; exact ⟨⟨a, fun hh => b hh.symm⟩, c⟩

/-! ## Runs that end with a send on `connected` -/

theorem attemptsIn_append (xs ys : List Step) :
    attemptsIn (xs ++ ys) = attemptsIn xs + attemptsIn ys := by
  simp [attemptsIn, List.filter_append]

theorem failuresIn_append (xs ys : List Step) :
    failuresIn (xs ++ ys) = failuresIn xs + failuresIn ys := by
  simp [failuresIn, List.filter_append]

theorem exec_parked (post : List Step) (σ : Sys)
    (hall : ∀ x ∈ post, x.waits = true)
    (hw : σ.worker = Worker.done) (hm : σ.main = Main.waiting)
    (hs : σ.state.get StateCancelled = none) :
    exec σ post = σ := by
  induction post with
  | nil => rfl
  | cons x xs ih =>
    have hx := hall x (by simp)
    rw [exec_cons]
    cases x with
    | result => simp [Step.waits] at hx
    | timeout => simp [Step.waits] at hx
    | cancel => simp [Step.waits] at hx
    | tick =>
      rw [step_tick_clear σ hm hs]
      exact ih (fun y hy => hall y (by simp [hy]))
    | attempt r =>
      simp only [step]
      rw [attemptIter_idle σ r (Or.inr (Or.inr hw))]
      exact ih (fun y hy => hall y (by simp [hy]))

theorem exec_retrying_fields (pre : List Step) (σ : Sys)
    (hall : ∀ x ∈ pre, x.retries = true)
    (hw : σ.worker = Worker.looping) (hm : σ.main = Main.waiting)
    (hq : σ.connectQuit = []) (hs : σ.state.get StateCancelled = none)
    (hb : σ.handshakeAttempts + failuresIn pre ≤ 5) :
    ∃ tr, (exec σ pre).worker = Worker.looping ∧ (exec σ pre).main = Main.waiting ∧
      (exec σ pre).connectQuit = [] ∧ (exec σ pre).connected = σ.connected ∧
      (exec σ pre).state = σ.state ∧ (exec σ pre).cfg = σ.cfg ∧
      (exec σ pre).attempts = σ.attempts + attemptsIn pre ∧
      (exec σ pre).handshakeAttempts = σ.handshakeAttempts + failuresIn pre ∧
      (exec σ pre).trace = σ.trace ++ tr ∧
      dials tr = attemptsIn pre ∧ failedHandshakes tr = failuresIn pre ∧
      published tr = [] ∧ interrupted tr = false ∧ ∀ k, writesTo k tr = 0 := by
  obtain ⟨conn, comm, tr, h1, h2, h3, h4, h5, h6⟩ := exec_retrying pre σ hall hw hm hq hs hb
  refine ⟨tr, ?_, ?_, ?_, ?_, ?_, ?_, ?_, ?_, ?_, h2, h3, h4, h5, h6⟩ <;> rw [h1]
  · exact hw
  · exact hm
  · exact hq

theorem RunStart_accepted_fields (addPEMKey : String → Option String) (s : stepConnectSSH)
    (state : StateBag) (cfg : config) (key : String)
    (hc : state.get "config" = some (Value.config cfg))
    (hk : state.get "privateKey" = some (Value.str key))
    (hu : state.get "ui" = some Value.ui) (ha : addPEMKey key = none) :
    ∃ σ0, RunStart addPEMKey s state = some σ0 ∧
      σ0.worker = Worker.looping ∧ σ0.main = Main.waiting ∧ σ0.connectQuit = [] ∧
      σ0.connected = [] ∧ σ0.state = state ∧ σ0.attempts = 0 ∧ σ0.handshakeAttempts = 0 ∧
      σ0.trace = [Event.uiSay "Connecting to the droplet via SSH..."] ∧ σ0.cfg = cfg :=
  ⟨_, RunStart_accepted addPEMKey s state cfg key hc hk hu ha,
    rfl, rfl, rfl, rfl, rfl, rfl, rfl, rfl, rfl⟩

theorem RunStart_cases (addPEMKey : String → Option String) (s : stepConnectSSH)
    (state : StateBag) (σ0 : Sys) (h : RunStart addPEMKey s state = some σ0) :
    (σ0.worker = Worker.absent ∧ σ0.main = Main.returned StepAction.ActionHalt) ∨
    (σ0.worker = Worker.looping ∧ σ0.main = Main.waiting ∧ σ0.connectQuit = [] ∧
      σ0.state = state ∧ σ0.attempts = 0 ∧ σ0.handshakeAttempts = 0 ∧
      σ0.trace = [Event.uiSay "Connecting to the droplet via SSH..."]) := by
  unfold RunStart at h
  split at h
  · split at h
    · simp only [Option.some.injEq] at h
      subst h
      exact Or.inl ⟨rfl, rfl⟩
    · simp only [Option.some.injEq] at h
      subst h
      exact Or.inr ⟨rfl, rfl, rfl, rfl, rfl, rfl, rfl⟩
  · simp at h

theorem Run_eq (addPEMKey : String → Option String) (s : stepConnectSSH)
    (state : StateBag) (σ0 : Sys) (sched : List Step)
    (h : RunStart addPEMKey s state = some σ0) :
    Run addPEMKey s state sched = some (exec σ0 sched) := by
  simp [Run, h]

theorem handshakeAttempts_publish (σ : Sys) (v : Option String) :
    (publish σ v).handshakeAttempts = σ.handshakeAttempts := by
  unfold publish
  split <;> rfl

theorem handshakeAttempts_deferredQuit (σ : Sys) (a : StepAction) :
    (deferredQuit σ a).handshakeAttempts = σ.handshakeAttempts := by
  unfold deferredQuit
  split <;> rfl

theorem handshakeAttempts_mainMove (body : Sys → Sys) (σ : Sys)
    (h : ∀ τ, (body τ).handshakeAttempts = τ.handshakeAttempts) :
    (mainMove body σ).handshakeAttempts = σ.handshakeAttempts := by
  unfold mainMove
  split
  · exact h σ
  · exact handshakeAttempts_deferredQuit σ _
  · rfl

theorem handshakeAttempts_step (σ : Sys) (x : Step) :
    σ.handshakeAttempts ≤ (step σ x).handshakeAttempts := by
  cases x with
  | cancel => exact Nat.le_refl _
  | result =>
    refine Nat.le_of_eq (handshakeAttempts_mainMove _ σ ?_).symm
    intro τ
    unfold onResult
    split
    · rfl
    · rw [handshakeAttempts_deferredQuit]; rfl
    · rw [handshakeAttempts_deferredQuit]
  | timeout =>
    refine Nat.le_of_eq (handshakeAttempts_mainMove _ σ ?_).symm
    intro τ
    unfold onTimeout
    rw [handshakeAttempts_deferredQuit]; rfl
  | tick =>
    refine Nat.le_of_eq (handshakeAttempts_mainMove _ σ ?_).symm
    intro τ
    unfold onTick
    split
    · rw [handshakeAttempts_deferredQuit]
    · rfl
  | attempt r =>
    simp only [step]
    unfold attemptIter
    split
    · exact Nat.le_refl _
    · exact Nat.le_refl _
    · exact Nat.le_refl _
    · rw [handshakeAttempts_publish]
    · split
      · exact Nat.le_refl _
      · split
        · exact Nat.le_refl _
        · simp only
          split
          · rw [handshakeAttempts_publish]; simp
          · simp
        · rw [handshakeAttempts_publish]

theorem handshakeAttempts_exec (sched : List Step) (σ : Sys) :
    σ.handshakeAttempts ≤ (exec σ sched).handshakeAttempts := by
  induction sched generalizing σ with
  | nil => exact Nat.le_refl _
  | cons x xs ih =>
    rw [exec_cons]
    exact Nat.le_trans (handshakeAttempts_step σ x) (ih (step σ x))

/-! ## The wait loop on a clock -/

theorem waitLoopAt_returned (T c : Nat) (tie : Bool) (lags : List Nat) (now : Nat)
    (σ : Sys) (h : σ.main ≠ Main.waiting) : waitLoopAt T c tie lags now σ = (σ, now) := by
  cases lags with
  | nil => rfl
  | cons l ls => simp [waitLoopAt, h]

theorem tickTime_succ (lags : List Nat) (n : Nat) (hn : n < lags.length) :
    tickTime lags (n + 1) = tickTime lags n + lags.getD n 0 + Second := by
  induction lags generalizing n with
  | nil => simp at hn
  | cons l ls ih =>
    cases n with
    | zero => simp [tickTime]
    | succ m =>
      have hm : m < ls.length := by simpa using hn
      have e1 : tickTime (l :: ls) (m + 1 + 1) = l + 1 * Second + tickTime ls (m + 1) := rfl
      have e2 : tickTime (l :: ls) (m + 1) = l + 1 * Second + tickTime ls m := rfl
      rw [e1, e2, ih m hm, List.getD_cons_succ]
      omega

theorem tickTime_late (lags : List Nat) (n : Nat) (hn : n ≤ lags.length)
    (hpos : ∀ l ∈ lags, 0 < l) : n * Second + n ≤ tickTime lags n := by
  induction lags generalizing n with
  | nil =>
    have : n = 0 := by simpa using hn
    subst this
    simp [tickTime]
  | cons l ls ih =>
    cases n with
    | zero => simp [tickTime]
    | succ m =>
      have hm : m ≤ ls.length := by simpa using hn
      have h1 := ih m hm (fun x hx => hpos x (by simp [hx]))
      have h2 := hpos l (by simp)
      simp only [tickTime, Nat.one_mul]
      simp only [Second] at h1 ⊢
      omega

theorem waitLoopAt_cancelled (T c : Nat) (tie : Bool) (n : Nat) :
    ∀ (lags : List Nat) (now : Nat) (σ : Sys), n < lags.length →
      σ.main = Main.waiting → σ.connectQuit = [] → σ.state.get StateCancelled = none →
      (n = 0 ∨ now + tickTime lags n < c) → c ≤ now + tickTime lags (n + 1) →
      now + tickTime lags (n + 1) < T →
      waitLoopAt T c tie lags now σ =
        ({ σ with state := σ.state.set StateCancelled (Value.bool true),
                  connectQuit := [true], main := Main.returned StepAction.ActionHalt,
                  trace := σ.trace ++
                    [Event.logLine "Interrupt detected, quitting waiting for SSH.",
                     Event.quit] },
         now + tickTime lags (n + 1)) := by
  induction n with
  | zero =>
    intro lags now σ hf hm hq hs _ hc hT
    obtain ⟨l, ls, rfl⟩ : ∃ l ls, lags = l :: ls := by
      cases lags with
      | nil => simp at hf
      | cons l ls => exact ⟨l, ls, rfl⟩
    simp only [tickTime, Nat.one_mul, Nat.add_zero] at hc hT
    have h1 : ¬ (T < now + l + Second ∨ (T = now + l + Second ∧ tie = true)) := by omega
    simp only [waitLoopAt, hm, ne_eq, not_true_eq_false, if_false, Nat.one_mul, h1]
    have h2 : markAt c (now + l + Second) σ =
        { σ with state := σ.state.set StateCancelled (Value.bool true) } := by
      have : c ≤ now + l + Second := by omega
      simp [markAt, this, step_cancel]
    rw [h2, step_tick_cancelled { σ with state := σ.state.set StateCancelled (Value.bool true) }
      (Value.bool true) hm (by simp [get_set]) hq, waitLoopAt_returned _ _ _ _ _ _ (by simp)]
    simp only [tickTime, Nat.one_mul, Nat.add_zero, Prod.mk.injEq, true_and]
    omega
  | succ m ih =>
    intro lags now σ hf hm hq hs hlt hc hT
    obtain ⟨l, ls, rfl⟩ : ∃ l ls, lags = l :: ls := by
      cases lags with
      | nil => simp at hf
      | cons l ls => exact ⟨l, ls, rfl⟩
    have hls : m < ls.length := by simpa using hf
    have hlt1 : now + tickTime (l :: ls) (m + 1) < c := by
      rcases hlt with h | h
      · omega
      · exact h
    simp only [tickTime, Nat.one_mul] at hlt1 hc hT
    have h1 : ¬ (T < now + l + Second ∨ (T = now + l + Second ∧ tie = true)) := by omega
    simp only [waitLoopAt, hm, ne_eq, not_true_eq_false, if_false, Nat.one_mul, h1]
    have h2 : markAt c (now + l + Second) σ = σ := by
      have : ¬ c ≤ now + l + Second := by omega
      simp [markAt, this]
    rw [h2, step_tick_clear σ hm hs,
      ih ls (now + l + Second) σ hls hm hq hs (Or.inr (by omega)) (by omega) (by omega)]
    simp only [tickTime, Nat.one_mul, Prod.mk.injEq, true_and]
    omega

/-! ## What is sent on `connected` -/

theorem Backed_grow (σ τ : Sys) (l : List Event) (h : Backed σ)
    (ht : τ.trace = σ.trace ++ l) (hl : ∀ v ∈ published l, ∃ c u, Event.handshake c u v ∈ l) :
    Backed τ := by
  intro v hv
  rw [ht, published_append, List.mem_append] at hv
  rw [ht]
  rcases hv with hv | hv
  · obtain ⟨c, u, hcu⟩ := h v hv
    exact ⟨c, u, List.mem_append_left _ hcu⟩
  · obtain ⟨c, u, hcu⟩ := hl v hv
    exact ⟨c, u, List.mem_append_right _ hcu⟩

theorem trace_deferredQuit (σ : Sys) (a : StepAction) :
    ∃ l, (deferredQuit σ a).trace = σ.trace ++ l ∧ published l = [] := by
  unfold deferredQuit
  split
  · exact ⟨[Event.quit], rfl, by simp⟩
  · exact ⟨[], by simp, by simp⟩

theorem trace_mainMove (σ : Sys) (x : Step) (hx : ∀ r, x ≠ Step.attempt r) :
    ∃ l, (step σ x).trace = σ.trace ++ l ∧ published l = [] := by
  cases x with
  | attempt r => exact absurd rfl (hx r)
  | cancel => exact ⟨[], by simp [step], by simp⟩
  | timeout =>
    simp only [step, mainMove]
    split
    · obtain ⟨l, h1, h2⟩ := trace_deferredQuit
        (recordError σ "Timeout waiting for SSH to become available.") StepAction.ActionHalt
      exact ⟨[Event.stateSet "error" (Value.err "Timeout waiting for SSH to become available."),
        Event.uiError "Timeout waiting for SSH to become available."] ++ l,
        by rw [onTimeout, h1]; simp [recordError], by simp [h2]⟩
    · exact trace_deferredQuit σ _
    · exact ⟨[], by simp, by simp⟩
  | tick =>
    simp only [step, mainMove]
    split
    · unfold onTick
      split
      · obtain ⟨l, h1, h2⟩ := trace_deferredQuit
          { σ with trace := σ.trace ++
              [Event.logLine "Interrupt detected, quitting waiting for SSH."] }
          StepAction.ActionHalt
        exact ⟨[Event.logLine "Interrupt detected, quitting waiting for SSH."] ++ l,
          by rw [h1]; simp, by simp [h2]⟩
      · exact ⟨[], by simp, by simp⟩
    · exact trace_deferredQuit σ _
    · exact ⟨[], by simp, by simp⟩
  | result =>
    simp only [step, mainMove]
    split
    · unfold onResult
      split
      · exact ⟨[], by simp, by simp⟩
      · rename_i e rest _
        obtain ⟨l, h1, h2⟩ := trace_deferredQuit
          (recordError { σ with connected := rest } ("Error connecting to SSH: " ++ e))
          StepAction.ActionHalt
        exact ⟨[Event.stateSet "error" (Value.err ("Error connecting to SSH: " ++ e)),
          Event.uiError ("Error connecting to SSH: " ++ e)] ++ l,
          by rw [h1]; simp [recordError], by simp [h2]⟩
      · rename_i rest _
        obtain ⟨l, h1, h2⟩ := trace_deferredQuit
          { σ with connected := rest,
                   state := σ.state.set "communicator" (Value.comm σ.comm),
                   trace := σ.trace ++ [Event.stateSet "communicator" (Value.comm σ.comm)] }
          StepAction.ActionContinue
        exact ⟨[Event.stateSet "communicator" (Value.comm σ.comm)] ++ l,
          by rw [h1]; simp, by simp [h2]⟩
    · exact trace_deferredQuit σ _
    · exact ⟨[], by simp, by simp⟩

theorem Backed_step (σ : Sys) (x : Step) (hI : Inv σ) (hB : Backed σ) : Backed (step σ x) := by
  cases x with
  | attempt r =>
    simp only [step]
    cases hw : σ.worker with
    | absent => rw [attemptIter_idle σ r (by simp [hw])]; exact hB
    | stopped => rw [attemptIter_idle σ r (by simp [hw])]; exact hB
    | done => rw [attemptIter_idle σ r (by simp [hw])]; exact hB
    | sending v => exact absurd hw (hI.sendFree v)
    | looping =>
      have hc := (hI.quiet (by simp [hw])).1
      cases hq : σ.connectQuit with
      | cons b rest =>
        rw [attemptIter_quit σ r b rest hw hq]
        exact Backed_grow σ _ [] hB (by simp) (by simp)
      | nil =>
        rcases r with e | ⟨c, e⟩ | ⟨c, k⟩
        · rw [attemptIter_dialError σ e hw hq]
          exact Backed_grow σ _ _ hB rfl (by simp)
        · by_cases hlt : σ.handshakeAttempts + 1 > 5
          · rw [attemptIter_handshakeError_exhausted σ c e hw hq hlt hc]
            exact Backed_grow σ _ _ hB rfl (by simp)
          · rw [attemptIter_handshakeError_retry σ c e hw hq (by omega)]
            exact Backed_grow σ _ _ hB rfl (by simp)
        · rw [attemptIter_connectedOk σ c k hw hq hc]
          exact Backed_grow σ _ _ hB rfl (by simp)
  | result =>
    obtain ⟨l, h1, h2⟩ := trace_mainMove σ Step.result (by simp)
    exact Backed_grow σ _ l hB h1 (by simp [h2])
  | timeout =>
    obtain ⟨l, h1, h2⟩ := trace_mainMove σ Step.timeout (by simp)
    exact Backed_grow σ _ l hB h1 (by simp [h2])
  | tick =>
    obtain ⟨l, h1, h2⟩ := trace_mainMove σ Step.tick (by simp)
    exact Backed_grow σ _ l hB h1 (by simp [h2])
  | cancel =>
    obtain ⟨l, h1, h2⟩ := trace_mainMove σ Step.cancel (by simp)
    exact Backed_grow σ _ l hB h1 (by simp [h2])

theorem Backed_exec (sched : List Step) (σ : Sys) (hI : Inv σ) (hB : Backed σ) :
    Backed (exec σ sched) := by
  induction sched generalizing σ with
  | nil => exact hB
  | cons x xs ih => exact ih (step σ x) (Inv_step σ x hI) (Backed_step σ x hI hB)

theorem Backed_Run (addPEMKey : String → Option String) (s : stepConnectSSH)
    (state : StateBag) (sched : List Step) (σ : Sys)
    (h : Run addPEMKey s state sched = some σ) : Backed σ := by
  unfold Run at h
  cases h0 : RunStart addPEMKey s state with
  | none => simp [h0] at h
  | some σ0 =>
    simp only [h0, Option.map_some', Option.some.injEq] at h
    subst h
    refine Backed_exec sched σ0 (Inv_RunStart addPEMKey s state σ0 h0) ?_
    unfold RunStart at h0
    split at h0
    · split at h0
      · simp only [Option.some.injEq] at h0
        subst h0
        intro v hv
        simp [recordError] at hv
      · simp only [Option.some.injEq] at h0
        subst h0
        intro v hv
        simp at hv
    · simp at h0

/-! ## The stop signal after the return of `Run` -/

theorem Run_returned_stop_pending (addPEMKey : String → Option String) (s : stepConnectSSH)
    (state : StateBag) (sched : List Step) (σ : Sys) (a : StepAction)
    (h : Run addPEMKey s state sched = some σ) (hm : σ.main = Main.returned a)
    (hw : σ.worker = Worker.looping) : σ.connectQuit = [true] := by
  rcases (Inv_Run addPEMKey s state sched σ h).quits a hm with ⟨h1, _⟩ | ⟨_, h2⟩
  · rcases h1 with h1 | h1 <;> rw [hw] at h1 <;> simp at h1
  · exact h2

/-! ## A rejected key -/

/-- C1: when `AddPEMKey` rejects the private key, `Run` returns `ActionHalt`
with `state["error"]` set to the wrapped key error, written once; under every
schedule the goroutine is never started, no dial is issued, `s.conn` keeps its
value and `state["communicator"]` is neither written nor changed. -/
theorem Run_rejected_key (addPEMKey : String → Option String) (s : stepConnectSSH)
    (state : StateBag) (cfg : config) (key e : String) (sched : List Step)
    (hc : state.get "config" = some (Value.config cfg))
    (hk : state.get "privateKey" = some (Value.str key))
    (hu : state.get "ui" = some Value.ui) (ha : addPEMKey key = some e) :
    ∃ σ, Run addPEMKey s state sched = some σ ∧
      σ.main = Main.returned StepAction.ActionHalt ∧
      σ.state.get "error" = some (Value.err ("Error setting up SSH config: " ++ e)) ∧
      writesTo "error" σ.trace = 1 ∧
      σ.worker = Worker.absent ∧ σ.attempts = 0 ∧ dials σ.trace = 0 ∧ σ.conn = s.conn ∧
      writesTo "communicator" σ.trace = 0 ∧
      σ.state.get "communicator" = state.get "communicator" := by
  obtain ⟨σ0, h0, hw, hm, hst, htr, hat, hcn⟩ :
      ∃ σ0, RunStart addPEMKey s state = some σ0 ∧ σ0.worker = Worker.absent ∧
        σ0.main = Main.returned StepAction.ActionHalt ∧
        σ0.state = state.set "error" (Value.err ("Error setting up SSH config: " ++ e)) ∧
        σ0.trace = [Event.stateSet "error" (Value.err ("Error setting up SSH config: " ++ e)),
                    Event.uiError ("Error setting up SSH config: " ++ e)] ∧
        σ0.attempts = 0 ∧ σ0.conn = s.conn :=
    ⟨_, RunStart_rejected addPEMKey s state cfg key e hc hk hu ha, rfl, rfl, rfl, rfl, rfl, rfl⟩
  unfold Run
  rw [h0]
  simp only [Option.map_some', Option.some.injEq, exists_eq_left']
  rcases exec_settled sched σ0 StepAction.ActionHalt hw hm with h | h <;> rw [h] <;>
    simp [get_set, StateCancelled, hw, hm, hst, htr, hat, hcn]

/-- C1, on a sample: the empty key is rejected whatever the goroutine and the
timers would have done. -/
theorem Run_rejected_key_witness :
    ∃ σ, Run sampleAddPEMKey { conn := some 7 } sampleStateNoKey
        [Step.attempt (AttemptResult.connectedOk 1 2), Step.result, Step.timeout] = some σ ∧
      σ.main = Main.returned StepAction.ActionHalt ∧
      σ.state.get "error" = some (Value.err ("Error setting up SSH config: " ++ "no key found")) ∧
      writesTo "error" σ.trace = 1 ∧
      σ.worker = Worker.absent ∧ σ.attempts = 0 ∧ dials σ.trace = 0 ∧ σ.conn = some 7 ∧
      writesTo "communicator" σ.trace = 0 ∧
      σ.state.get "communicator" = sampleStateNoKey.get "communicator" :=
  Run_rejected_key sampleAddPEMKey { conn := some 7 } sampleStateNoKey sampleConfig "" "no key found"
    [Step.attempt (AttemptResult.connectedOk 1 2), Step.result, Step.timeout]
    (by decide) (by decide) (by decide) (by decide)

/-! ## A target that never accepts a dial -/

/-- C2: when the key is accepted, the state bag carries no cancellation marker,
nobody cancels and every dial of the schedule fails, the goroutine never sends
on `connected`; `Run` keeps waiting as long as the timeout has not fired, and
once it has fired `Run` has returned `ActionHalt` with `state["error"]` set to
the timeout error, written once, `state["communicator"]` being neither written
nor changed. -/
theorem Run_dial_failures_timeout (addPEMKey : String → Option String) (s : stepConnectSSH)
    (state : StateBag) (cfg : config) (key : String) (sched : List Step)
    (hc : state.get "config" = some (Value.config cfg))
    (hk : state.get "privateKey" = some (Value.str key))
    (hu : state.get "ui" = some Value.ui) (ha : addPEMKey key = none)
    (hs : state.get StateCancelled = none)
    (hd : ∀ r, Step.attempt r ∈ sched → ∃ e, r = AttemptResult.dialError e)
    (hn : Step.cancel ∉ sched) :
    ∃ σ, Run addPEMKey s state sched = some σ ∧
      σ.connected = [] ∧ published σ.trace = [] ∧
      writesTo "communicator" σ.trace = 0 ∧
      σ.state.get "communicator" = state.get "communicator" ∧
      (Step.timeout ∉ sched → σ.main = Main.waiting ∧ writesTo "error" σ.trace = 0) ∧
      (Step.timeout ∈ sched →
        σ.main = Main.returned StepAction.ActionHalt ∧
        σ.state.get "error" =
          some (Value.err "Timeout waiting for SSH to become available.") ∧
        writesTo "error" σ.trace = 1) := by
  obtain ⟨σ0, h0, hsil, hm0⟩ :
      ∃ σ0, RunStart addPEMKey s state = some σ0 ∧
        Silent (state.get "communicator") σ0 ∧ σ0.main = Main.waiting :=
    ⟨_, RunStart_accepted addPEMKey s state cfg key hc hk hu ha,
      ⟨rfl, by simp, Or.inl rfl, hs, ⟨by simp, rfl⟩, Or.inl ⟨rfl, rfl, by simp⟩⟩, rfl⟩
  unfold Run
  rw [h0]
  simp only [Option.map_some', Option.some.injEq, exists_eq_left']
  obtain ⟨⟨g1, g2, g3, g4, g5, g6⟩, g7⟩ := Silent_exec _ sched σ0 hsil hd hn
  refine ⟨g1, g2, g5.1, g5.2, ?_, ?_⟩
  · intro ht
    have hw := g7.2 ⟨hm0, ht⟩
    rcases g6 with g6 | g6
    · exact ⟨g6.1, g6.2.2⟩
    · rw [hw] at g6; simp at g6
  · intro ht
    rcases g6 with g6 | g6
    · have := (g7.1 g6.1).2
      exact absurd ht this
    · exact g6

/-- C2, on a sample: three failed dials, two ticks, then the timeout. -/
theorem Run_dial_failures_timeout_witness :
    ∃ σ, Run sampleAddPEMKey { conn := none } sampleState
        [Step.attempt (AttemptResult.dialError "refused"), Step.tick,
         Step.attempt (AttemptResult.dialError "refused"), Step.tick,
         Step.attempt (AttemptResult.dialError "no route"), Step.timeout] = some σ ∧
      σ.connected = [] ∧ published σ.trace = [] ∧
      writesTo "communicator" σ.trace = 0 ∧
      σ.state.get "communicator" = sampleState.get "communicator" ∧
      (Step.timeout ∉
          [Step.attempt (AttemptResult.dialError "refused"), Step.tick,
           Step.attempt (AttemptResult.dialError "refused"), Step.tick,
           Step.attempt (AttemptResult.dialError "no route"), Step.timeout] →
        σ.main = Main.waiting ∧ writesTo "error" σ.trace = 0) ∧
      (Step.timeout ∈
          [Step.attempt (AttemptResult.dialError "refused"), Step.tick,
           Step.attempt (AttemptResult.dialError "refused"), Step.tick,
           Step.attempt (AttemptResult.dialError "no route"), Step.timeout] →
        σ.main = Main.returned StepAction.ActionHalt ∧
        σ.state.get "error" =
          some (Value.err "Timeout waiting for SSH to become available.") ∧
        writesTo "error" σ.trace = 1) :=
  Run_dial_failures_timeout sampleAddPEMKey { conn := none } sampleState sampleConfig "PEM" _
    (by decide) (by decide) (by decide) (by decide) (by decide) (by simp) (by decide)

/-! ## Six failed handshakes -/

/-- C3: when the key is accepted and nobody cancels, at every point of a
schedule with five iterations whose handshake fails (ticks and failed dials in
between) nothing has been sent on `connected` and the loop is still running;
the next failed handshake, the sixth, makes the goroutine send its error and
end, so that later iterations dial no more; and `Run`, receiving it, returns
`ActionHalt` with `state["error"]` set to the wrapped handshake error, written
once, for every configured timeout. -/
theorem Run_handshake_exhausted (addPEMKey : String → Option String) (s : stepConnectSSH)
    (state : StateBag) (cfg : config) (key : String) (pre post : List Step)
    (c : Conn) (e : String)
    (hc : state.get "config" = some (Value.config cfg))
    (hk : state.get "privateKey" = some (Value.str key))
    (hu : state.get "ui" = some Value.ui) (ha : addPEMKey key = none)
    (hs : state.get StateCancelled = none)
    (hpre : ∀ x ∈ pre, x.retries = true) (hfive : failuresIn pre = 5)
    (hpost : ∀ x ∈ post, x.waits = true) :
    (∀ p, p <+: pre → ∃ σ, Run addPEMKey s state p = some σ ∧
      σ.connected = [] ∧ published σ.trace = [] ∧ σ.worker = Worker.looping ∧
      σ.handshakeAttempts = failuresIn p ∧ σ.handshakeAttempts ≤ 5) ∧
    (∃ σ, Run addPEMKey s state
        (pre ++ Step.attempt (AttemptResult.handshakeError c e) :: post) = some σ ∧
      σ.connected = [some e] ∧ published σ.trace = [some e] ∧ σ.worker = Worker.done ∧
      σ.handshakeAttempts = 6 ∧ σ.attempts = attemptsIn pre + 1 ∧
      dials σ.trace = attemptsIn pre + 1 ∧ σ.main = Main.waiting) ∧
    (∃ σ, Run addPEMKey s state
        (pre ++ Step.attempt (AttemptResult.handshakeError c e) :: post ++ [Step.result]) =
          some σ ∧
      σ.main = Main.returned StepAction.ActionHalt ∧
      σ.state.get "error" = some (Value.err ("Error connecting to SSH: " ++ e)) ∧
      writesTo "error" σ.trace = 1 ∧ writesTo "communicator" σ.trace = 0 ∧
      σ.attempts = attemptsIn pre + 1) := by
  obtain ⟨σ0, h0, hw, hm, hq, hcn, hst, hat, hhs, htr, hcfg⟩ :=
    RunStart_accepted_fields addPEMKey s state cfg key hc hk hu ha
  obtain ⟨tr, f1, f2, f3, f4, f5, f6, f7, f8, f9, h2, h3, h4, h5, h6⟩ :=
    exec_retrying_fields pre σ0 hpre hw hm hq (by rw [hst]; exact hs) (by omega)
  refine ⟨?_, ⟨_, Run_eq _ _ _ σ0 _ h0, ?_⟩, ⟨_, Run_eq _ _ _ σ0 _ h0, ?_⟩⟩
  · rintro p ⟨q, hpq⟩
    have hle : failuresIn p ≤ 5 := by
      have := failuresIn_append p q
      rw [hpq, hfive] at this
      omega
    obtain ⟨tr1, g1, g2, g3, g4, g5, g6, g7, g8, g9, k2, k3, k4, k5, k6⟩ :=
      exec_retrying_fields p σ0 (fun x hx => hpre x (by rw [← hpq]; simp [hx])) hw hm hq
        (by rw [hst]; exact hs) (by omega)
    refine ⟨_, Run_eq _ _ _ σ0 _ h0, ?_⟩
    simp [g1, g4, g8, g9, hcn, htr, k4, hhs, hle]
  · simp only [exec_append, exec_cons, exec_nil]
    generalize exec σ0 pre = σ1 at f1 f2 f3 f4 f5 f6 f7 f8 f9
    have hstep : step σ1 (Step.attempt (AttemptResult.handshakeError c e)) = _ :=
      attemptIter_handshakeError_exhausted σ1 c e f1 f3
        (by simp [f8, hhs, hfive]) (by rw [f4, hcn])
    generalize step σ1 (Step.attempt (AttemptResult.handshakeError c e)) = σ2 at hstep
    rw [exec_parked post σ2 hpost (by simp [hstep]) (by simp [hstep, f2])
      (by simp [hstep, f5, hst, hs])]
    simp [hstep, f7, f8, f9, htr, h4, hhs, hfive, hat, h2, f2]
  · simp only [exec_append, exec_cons, exec_nil]
    generalize exec σ0 pre = σ1 at f1 f2 f3 f4 f5 f6 f7 f8 f9
    have hstep : step σ1 (Step.attempt (AttemptResult.handshakeError c e)) = _ :=
      attemptIter_handshakeError_exhausted σ1 c e f1 f3
        (by simp [f8, hhs, hfive]) (by rw [f4, hcn])
    generalize step σ1 (Step.attempt (AttemptResult.handshakeError c e)) = σ2 at hstep
    rw [exec_parked post σ2 hpost (by simp [hstep]) (by simp [hstep, f2])
      (by simp [hstep, f5, hst, hs])]
    rw [step_result_error σ2 e [] (by simp [hstep, f2]) (by simp [hstep])
      (by simp [hstep, f3])]
    simp [hstep, f7, f9, htr, h6, hat, get_set]

/-- C3, on a sample: the sixth failed handshake ends the goroutine, a seventh
iteration changes nothing, and `Run` halts with the handshake error although
the timeout is 60 seconds. -/
theorem Run_handshake_exhausted_witness :
    ∃ σ, Run sampleAddPEMKey { conn := none } sampleState
        (sampleFiveFailures ++ Step.attempt (AttemptResult.handshakeError 6 "no auth") ::
          [Step.tick, Step.attempt (AttemptResult.connectedOk 7 1)] ++ [Step.result]) = some σ ∧
      σ.main = Main.returned StepAction.ActionHalt ∧
      σ.state.get "error" = some (Value.err ("Error connecting to SSH: " ++ "no auth")) ∧
      writesTo "error" σ.trace = 1 ∧ writesTo "communicator" σ.trace = 0 ∧
      σ.attempts = 6 :=
  (Run_handshake_exhausted sampleAddPEMKey { conn := none } sampleState sampleConfig "PEM"
    sampleFiveFailures [Step.tick, Step.attempt (AttemptResult.connectedOk 7 1)] 6 "no auth"
    (by decide) (by decide) (by decide) (by decide) (by decide) (by decide) (by decide)
    (by decide)).2.2

/-! ## A handshake that succeeds within the budget -/

/-- C4: when the key is accepted and nobody cancels, after at most five failed
handshakes (ticks and failed dials in between) an iteration whose handshake
succeeds makes the goroutine send `nil` and end; at no point of the run does
the failure counter exceed 5; and `Run`, receiving the `nil`, returns
`ActionContinue` with `state["communicator"]` set to the communicator of that
handshake and `state["error"]` neither written nor changed. -/
theorem Run_handshake_succeeds (addPEMKey : String → Option String) (s : stepConnectSSH)
    (state : StateBag) (cfg : config) (key : String) (pre post : List Step)
    (c : Conn) (k : Communicator)
    (hc : state.get "config" = some (Value.config cfg))
    (hk : state.get "privateKey" = some (Value.str key))
    (hu : state.get "ui" = some Value.ui) (ha : addPEMKey key = none)
    (hs : state.get StateCancelled = none)
    (hpre : ∀ x ∈ pre, x.retries = true) (hfew : failuresIn pre ≤ 5)
    (hpost : ∀ x ∈ post, x.waits = true) :
    (∃ σ, Run addPEMKey s state
        (pre ++ Step.attempt (AttemptResult.connectedOk c k) :: post) = some σ ∧
      σ.connected = [none] ∧ published σ.trace = [none] ∧ σ.worker = Worker.done ∧
      σ.comm = some k ∧ σ.conn = some c ∧ σ.handshakeAttempts = failuresIn pre ∧
      σ.main = Main.waiting) ∧
    (∀ p, p <+: pre ++ Step.attempt (AttemptResult.connectedOk c k) :: post ++ [Step.result] →
      ∃ σ, Run addPEMKey s state p = some σ ∧ σ.handshakeAttempts ≤ 5) ∧
    (∃ σ, Run addPEMKey s state
        (pre ++ Step.attempt (AttemptResult.connectedOk c k) :: post ++ [Step.result]) =
          some σ ∧
      σ.main = Main.returned StepAction.ActionContinue ∧
      σ.state.get "communicator" = some (Value.comm (some k)) ∧
      writesTo "communicator" σ.trace = 1 ∧ writesTo "error" σ.trace = 0 ∧
      σ.state.get "error" = state.get "error") := by
  obtain ⟨σ0, h0, hw, hm, hq, hcn, hst, hat, hhs, htr, hcfg⟩ :=
    RunStart_accepted_fields addPEMKey s state cfg key hc hk hu ha
  obtain ⟨tr, f1, f2, f3, f4, f5, f6, f7, f8, f9, h2, h3, h4, h5, h6⟩ :=
    exec_retrying_fields pre σ0 hpre hw hm hq (by rw [hst]; exact hs) (by omega)
  have key3 : (exec σ0
        (pre ++ Step.attempt (AttemptResult.connectedOk c k) :: post ++ [Step.result])).main =
          Main.returned StepAction.ActionContinue ∧
      (exec σ0 (pre ++ Step.attempt (AttemptResult.connectedOk c k) :: post ++
        [Step.result])).state.get "communicator" = some (Value.comm (some k)) ∧
      writesTo "communicator" (exec σ0 (pre ++ Step.attempt (AttemptResult.connectedOk c k) ::
        post ++ [Step.result])).trace = 1 ∧
      writesTo "error" (exec σ0 (pre ++ Step.attempt (AttemptResult.connectedOk c k) ::
        post ++ [Step.result])).trace = 0 ∧
      (exec σ0 (pre ++ Step.attempt (AttemptResult.connectedOk c k) :: post ++
        [Step.result])).state.get "error" = state.get "error" ∧
      (exec σ0 (pre ++ Step.attempt (AttemptResult.connectedOk c k) :: post ++
        [Step.result])).handshakeAttempts = failuresIn pre := by
    simp only [exec_append, exec_cons, exec_nil]
    generalize exec σ0 pre = σ1 at f1 f2 f3 f4 f5 f6 f7 f8 f9
    have hstep : step σ1 (Step.attempt (AttemptResult.connectedOk c k)) = _ :=
      attemptIter_connectedOk σ1 c k f1 f3 (by rw [f4, hcn])
    generalize step σ1 (Step.attempt (AttemptResult.connectedOk c k)) = σ2 at hstep
    rw [exec_parked post σ2 hpost (by simp [hstep]) (by simp [hstep, f2])
      (by simp [hstep, f5, hst, hs])]
    rw [step_result_ok σ2 [] (by simp [hstep, f2]) (by simp [hstep]) (by simp [hstep, f3])]
    simp [hstep, f5, f8, f9, htr, h6, hst, hhs, get_set]
  refine ⟨⟨_, Run_eq _ _ _ σ0 _ h0, ?_⟩, ?_, ⟨_, Run_eq _ _ _ σ0 _ h0, ?_⟩⟩
  · simp only [exec_append, exec_cons, exec_nil]
    generalize exec σ0 pre = σ1 at f1 f2 f3 f4 f5 f6 f7 f8 f9
    have hstep : step σ1 (Step.attempt (AttemptResult.connectedOk c k)) = _ :=
      attemptIter_connectedOk σ1 c k f1 f3 (by rw [f4, hcn])
    generalize step σ1 (Step.attempt (AttemptResult.connectedOk c k)) = σ2 at hstep
    rw [exec_parked post σ2 hpost (by simp [hstep]) (by simp [hstep, f2])
      (by simp [hstep, f5, hst, hs])]
    simp [hstep, f8, f9, htr, h4, hhs, f2]
  · rintro p ⟨q, hpq⟩
    refine ⟨_, Run_eq _ _ _ σ0 _ h0, ?_⟩
    have := handshakeAttempts_exec q (exec σ0 p)
    rw [← exec_append, hpq, key3.2.2.2.2.2] at this
    omega
  · exact ⟨key3.1, key3.2.1, key3.2.2.1, key3.2.2.2.1, key3.2.2.2.2.1⟩

/-- C4, on a sample: four failed handshakes, then a successful one. -/
theorem Run_handshake_succeeds_witness :
    ∃ σ, Run sampleAddPEMKey { conn := none } sampleState
        (sampleFourFailures ++ Step.attempt (AttemptResult.connectedOk 5 9) ::
          [Step.tick] ++ [Step.result]) = some σ ∧
      σ.main = Main.returned StepAction.ActionContinue ∧
      σ.state.get "communicator" = some (Value.comm (some 9)) ∧
      writesTo "communicator" σ.trace = 1 ∧ writesTo "error" σ.trace = 0 ∧
      σ.state.get "error" = sampleState.get "error" :=
  (Run_handshake_succeeds sampleAddPEMKey { conn := none } sampleState sampleConfig "PEM"
    sampleFourFailures [Step.tick] 5 9
    (by decide) (by decide) (by decide) (by decide) (by decide) (by decide) (by decide)
    (by decide)).2.2

/-! ## Cancellation against the deadline -/

/-- C5, as the code has it: whatever time the passes of the wait loop take
(each more than none), when the first tick to fire at or after the instant `c`
of the cancellation fires strictly before the timeout `config.SSHTimeout`, the
wait loop returns `ActionHalt` at that tick through the cancellation branch,
without writing `state["error"]`, whichever way ties between timers are decided.
That tick, the one of pass `n + 1`, fires later than `n + 1` seconds after the
start, and at most one second and the lag of its pass after `c`. -/
theorem RunOnClock_cancelled (addPEMKey : String → Option String) (s : stepConnectSSH)
    (state : StateBag) (cfg : config) (key : String) (c : Nat) (tie : Bool)
    (lags : List Nat) (n : Nat)
    (hc : state.get "config" = some (Value.config cfg))
    (hk : state.get "privateKey" = some (Value.str key))
    (hu : state.get "ui" = some Value.ui) (ha : addPEMKey key = none)
    (hs : state.get StateCancelled = none)
    (hpos : ∀ l ∈ lags, 0 < l) (hn : n < lags.length)
    (hprev : n = 0 ∨ tickTime lags n < c) (hnext : c ≤ tickTime lags (n + 1))
    (hT : tickTime lags (n + 1) < cfg.SSHTimeout) :
    ∃ σ, RunOnClock addPEMKey s state c tie lags = some (σ, tickTime lags (n + 1)) ∧
      σ.main = Main.returned StepAction.ActionHalt ∧ interrupted σ.trace = true ∧
      writesTo "error" σ.trace = 0 ∧
      c < cfg.SSHTimeout ∧ (n + 1) * Second < tickTime lags (n + 1) ∧
      tickTime lags (n + 1) ≤ c + 1 * Second + lags.getD n 0 := by
  obtain ⟨σ0, h0, hw, hm, hq, hcn, hst, hat, hhs, htr, hcfg⟩ :=
    RunStart_accepted_fields addPEMKey s state cfg key hc hk hu ha
  have hrun := waitLoopAt_cancelled cfg.SSHTimeout c tie n lags 0 σ0 hn hm hq
    (by rw [hst]; exact hs) (by simpa using hprev) (by simpa using hnext) (by simpa using hT)
  refine ⟨(waitLoopAt cfg.SSHTimeout c tie lags 0 σ0).1, ?_, ?_, ?_, ?_, ?_, ?_, ?_⟩
  · simp only [RunOnClock, h0, Option.map_some', hcfg, hrun, Nat.zero_add]
  · rw [hrun]
  · rw [hrun]; simp [htr]
  · rw [hrun]; simp [htr]
  · omega
  · have := tickTime_late lags (n + 1) hn hpos
    omega
  · have := tickTime_succ lags n hn
    rcases hprev with h | h
    · subst h
      simp only [tickTime] at this
      omega
    · omega

/-- C5, on the sample of the specification: cancelled at 2.5 s under a timeout
of 60 s, with passes that take 0.7 ms each, `Run` halts as cancelled at the
third tick, 3.0021 s after the start. -/
theorem RunOnClock_cancelled_witness :
    ∃ σ, RunOnClock sampleAddPEMKey { conn := none } sampleState (2500 * Millisecond) true
        sampleLags = some (σ, tickTime sampleLags (2 + 1)) ∧
      σ.main = Main.returned StepAction.ActionHalt ∧ interrupted σ.trace = true ∧
      writesTo "error" σ.trace = 0 ∧
      2500 * Millisecond < sampleConfig.SSHTimeout ∧
      (2 + 1) * Second < tickTime sampleLags (2 + 1) ∧
      tickTime sampleLags (2 + 1) ≤ 2500 * Millisecond + 1 * Second + sampleLags.getD 2 0 :=
  RunOnClock_cancelled sampleAddPEMKey { conn := none } sampleState sampleConfig "PEM"
    (2500 * Millisecond) true sampleLags 2
    (by decide) (by decide) (by decide) (by decide) (by decide) (by decide) (by decide)
    (by decide) (by decide) (by decide)

/-- C5 as stated fails.  With a timeout of 0.5 s and a cancellation at 0.1 s
(before the deadline) the first tick is due later than the timeout: the wait
loop leaves through the timeout branch at 0.5 s and stores the timeout error,
whichever way ties are decided.  With a timeout of 3.001 s and a cancellation at
2.5 s, the ticks of passes that take 0.7 ms each fire at 1.0007 s, 2.0014 s and
3.0021 s: the third comes after the timeout, and the wait loop leaves through
the timeout branch at 3.001 s. -/
theorem RunOnClock_timeout_beats_cancel :
    100 * Millisecond < 500 * Millisecond ∧
    (∃ σ, RunOnClock sampleAddPEMKey { conn := none } sampleStateShort (100 * Millisecond)
        true sampleLags = some (σ, 500 * Millisecond) ∧
      σ.main = Main.returned StepAction.ActionHalt ∧ interrupted σ.trace = false ∧
      σ.state.get StateCancelled = some (Value.bool true) ∧
      σ.state.get "error" =
        some (Value.err "Timeout waiting for SSH to become available.")) ∧
    (∃ σ, RunOnClock sampleAddPEMKey { conn := none } sampleStateShort (100 * Millisecond)
        false sampleLags = some (σ, 500 * Millisecond) ∧
      σ.main = Main.returned StepAction.ActionHalt ∧ interrupted σ.trace = false ∧
      σ.state.get StateCancelled = some (Value.bool true) ∧
      σ.state.get "error" =
        some (Value.err "Timeout waiting for SSH to become available.")) ∧
    2500 * Millisecond < 3001 * Millisecond ∧
    (∃ σ, RunOnClock sampleAddPEMKey { conn := none } sampleStateNearTick (2500 * Millisecond)
        false sampleLags = some (σ, 3001 * Millisecond) ∧
      σ.main = Main.returned StepAction.ActionHalt ∧ interrupted σ.trace = false ∧
      σ.state.get StateCancelled = some (Value.bool true) ∧
      σ.state.get "error" =
        some (Value.err "Timeout waiting for SSH to become available.")) := by
  refine ⟨by decide, ⟨_, rfl, ?_⟩, ⟨_, rfl, ?_⟩, by decide, ⟨_, rfl, ?_⟩⟩ <;> decide

/-! ## What a halt leaves in the state bag -/

/-- C6, as the code has it: whenever `Run` has returned `ActionHalt`, either it
left through the cancellation branch and never wrote `state["error"]`, or it
wrote `state["error"]` exactly once, with one of its three messages (key
rejected, handshake error received, timeout), and showed that message through
`ui.Error`; in both cases `state["communicator"]` was not written. -/
theorem Run_halt_error_written (addPEMKey : String → Option String) (s : stepConnectSSH)
    (state : StateBag) (sched : List Step) (σ : Sys)
    (h : Run addPEMKey s state sched = some σ)
    (hh : σ.main = Main.returned StepAction.ActionHalt) :
    writesTo "communicator" σ.trace = 0 ∧
    ((interrupted σ.trace = true ∧ writesTo "error" σ.trace = 0) ∨
     (interrupted σ.trace = false ∧ writesTo "error" σ.trace = 1 ∧
       ∃ msg, σ.state.get "error" = some (Value.err msg) ∧ Event.uiError msg ∈ σ.trace ∧
         terminalMessage msg)) :=
  (Inv_Run addPEMKey s state sched σ h).halts hh

/-- C6, on a sample: a halt by timeout after one failed dial. -/
theorem Run_halt_error_written_witness :
    writesTo "communicator" sampleReturned.trace = 0 ∧
    ((interrupted sampleReturned.trace = true ∧ writesTo "error" sampleReturned.trace = 0) ∨
     (interrupted sampleReturned.trace = false ∧ writesTo "error" sampleReturned.trace = 1 ∧
       ∃ msg, sampleReturned.state.get "error" = some (Value.err msg) ∧
         Event.uiError msg ∈ sampleReturned.trace ∧ terminalMessage msg)) :=
  Run_halt_error_written sampleAddPEMKey { conn := none } sampleState
    [Step.attempt (AttemptResult.dialError "refused"), Step.timeout] sampleReturned
    (by decide) (by decide)

/-- C6 as stated fails: when the tick finds the cancellation marker, `Run`
returns `ActionHalt` and `state["error"]` has not been written: the state bag
holds no error and no `Cancelled` outcome beyond the marker of the runner. -/
theorem Run_cancelled_writes_no_error :
    ∃ σ, Run sampleAddPEMKey { conn := none } sampleState [Step.cancel, Step.tick] = some σ ∧
      σ.main = Main.returned StepAction.ActionHalt ∧
      writesTo "error" σ.trace = 0 ∧ σ.state.get "error" = none ∧
      σ.state = sampleState.set StateCancelled (Value.bool true) ∧
      σ.trace = [Event.uiSay "Connecting to the droplet via SSH...",
                 Event.logLine "Interrupt detected, quitting waiting for SSH.",
                 Event.quit] := by
  refine ⟨_, rfl, ?_⟩
  decide

/-! ## `Cleanup` -/

/-- C7, as the code has it: `Cleanup` calls `Close` once on the stored
connection when `s.conn` is non-nil and does nothing when it is nil, and it
leaves `s.conn` as it was; so a second `Cleanup` calls `Close` on the same
connection once more. -/
theorem Cleanup_closes (s : stepConnectSSH) :
    (Cleanup s).1 = s ∧
    (Cleanup s).2 = s.conn.toList.map Event.close ∧
    closes (Cleanup s).2 = s.conn.toList ∧
    closes ((Cleanup s).2 ++ (Cleanup (Cleanup s).1).2) = s.conn.toList ++ s.conn.toList := by
  obtain ⟨conn⟩ := s
  cases conn <;> simp [Cleanup, closes]

/-- C7 as stated fails: on a step that holds connection 7, the second `Cleanup`
is not a no-op; it calls `Close` again, and the connection has been closed
twice. -/
theorem Cleanup_twice_closes_twice :
    (Cleanup (Cleanup { conn := some 7 }).1).2 = [Event.close 7] ∧
    closes ((Cleanup { conn := some 7 }).2 ++ (Cleanup (Cleanup { conn := some 7 }).1).2) =
      [7, 7] := by
  decide

/-! ## The two counters -/

/-- C8: in every state that `Run` reaches, the counter `handshakeAttempts` is
the number of `ssh.New` calls so far that returned an error and `attempts` is
the number of dials so far; an iteration that passes the stop check adds one to
`attempts` whatever its result, and adds one to `handshakeAttempts` exactly when
the dial succeeded and the handshake failed, a failed dial leaving it as it is;
and after a schedule of failing iterations and ticks within the budget, the two
counters are the number of failed handshakes and of iterations of the
schedule. -/
theorem attempt_counters (addPEMKey : String → Option String) (s : stepConnectSSH)
    (state : StateBag) (sched : List Step) (σ : Sys)
    (h : Run addPEMKey s state sched = some σ) :
    σ.handshakeAttempts = failedHandshakes σ.trace ∧ σ.attempts = dials σ.trace ∧
    (σ.worker = Worker.looping → σ.connectQuit = [] →
      ∀ r, (attemptIter σ r).attempts = σ.attempts + 1 ∧
        (attemptIter σ r).handshakeAttempts =
          σ.handshakeAttempts +
            (match r with
              | AttemptResult.handshakeError _ _ => 1
              | _ => 0)) ∧
    (sched.all Step.retries = true → failuresIn sched ≤ 5 →
      state.get StateCancelled = none → σ.worker = Worker.looping →
      σ.handshakeAttempts = failuresIn sched ∧ σ.attempts = attemptsIn sched) := by
  have hI := Inv_Run addPEMKey s state sched σ h
  refine ⟨hI.countFails, hI.countDials, ?_, ?_⟩
  · intro hw hq r
    rcases r with e | ⟨c, e⟩ | ⟨c, k⟩
    · rw [attemptIter_dialError σ e hw hq]; simp
    · by_cases hlt : σ.handshakeAttempts + 1 > 5
      · rw [attemptIter_handshakeError_exhausted σ c e hw hq hlt (hI.quiet (by simp [hw])).1]
        simp
      · rw [attemptIter_handshakeError_retry σ c e hw hq (by omega)]
        simp
    · rw [attemptIter_connectedOk σ c k hw hq (hI.quiet (by simp [hw])).1]; simp
  · intro hall hfew hs hw
    unfold Run at h
    cases h0 : RunStart addPEMKey s state with
    | none => simp [h0] at h
    | some σ0 =>
      simp only [h0, Option.map_some', Option.some.injEq] at h
      rcases RunStart_cases addPEMKey s state σ0 h0 with ⟨g1, g2⟩ | ⟨g1, g2, g3, g4, g5, g6, g7⟩
      · have hab : σ.worker = Worker.absent := by
          rw [← h]
          rcases exec_settled sched σ0 StepAction.ActionHalt g1 g2 with e | e <;> rw [e]
          · exact g1
          · exact g1
        rw [hw] at hab
        simp at hab
      · obtain ⟨tr, f1, f2, f3, f4, f5, f6, f7, f8, f9, _⟩ :=
          exec_retrying_fields sched σ0 (by simpa using hall) g1 g2 g3 (by rw [g4]; exact hs)
            (by rw [g6]; simpa using hfew)
        rw [← h, f7, f8, g5, g6]
        simp

/-- C8, on a sample: after two failed dials and four failed handshakes the
failure counter is 4 and the attempt counter is 6. -/
theorem attempt_counters_witness :
    (exec sampleStarted sampleFourFailures).handshakeAttempts = 4 ∧
    (exec sampleStarted sampleFourFailures).attempts = 6 :=
  (attempt_counters sampleAddPEMKey { conn := none } sampleState sampleFourFailures
    (exec sampleStarted sampleFourFailures) (by decide)).2.2.2
    (by decide) (by decide) (by decide) (by decide)

/-! ## At most one send on `connected` -/

/-- C9: in every state that `Run` reaches, at most one value has been sent on
`connected`, the channel holds at most one value and the goroutine is never
blocked in its send.  A goroutine that has not ended through a send, the one
stopped by the stop signal among them, has sent nothing; one that has ended
through its send has sent exactly one value, the error returned by one of its
handshakes: `nil` with the failure counter at most 5, or a handshake error with
the counter at 6. -/
theorem result_channel_single (addPEMKey : String → Option String) (s : stepConnectSSH)
    (state : StateBag) (sched : List Step) (σ : Sys)
    (h : Run addPEMKey s state sched = some σ) :
    (published σ.trace).length ≤ 1 ∧ σ.connected.length ≤ 1 ∧
    (∀ v, σ.worker ≠ Worker.sending v) ∧
    (σ.worker ≠ Worker.done → published σ.trace = [] ∧ σ.connected = []) ∧
    (σ.worker = Worker.done →
      ∃ v, published σ.trace = [v] ∧ (σ.connected = [v] ∨ σ.connected = []) ∧
        (∃ c u, Event.handshake c u v ∈ σ.trace) ∧
        (v = none → σ.handshakeAttempts ≤ 5) ∧ (∀ e, v = some e → σ.handshakeAttempts = 6)) := by
  have hI := Inv_Run addPEMKey s state sched σ h
  have hB := Backed_Run addPEMKey s state sched σ h
  have hdone : σ.worker = Worker.done →
      ∃ v, published σ.trace = [v] ∧ (σ.connected = [v] ∨ σ.connected = []) ∧
        (∃ c u, Event.handshake c u v ∈ σ.trace) ∧
        (v = none → σ.handshakeAttempts ≤ 5) ∧ (∀ e, v = some e → σ.handshakeAttempts = 6) := by
    intro hd
    obtain ⟨v, p1, p2, p3, p4⟩ := hI.sent hd
    refine ⟨v, p1, ?_, hB v (by simp [p1]), p3, p4⟩
    rcases p2 with p2 | p2
    · exact Or.inl p2
    · exact Or.inr p2.1
  refine ⟨?_, ?_, hI.sendFree, fun hn => ⟨(hI.quiet hn).2, (hI.quiet hn).1⟩, hdone⟩
  · by_cases hd : σ.worker = Worker.done
    · obtain ⟨v, p1, _⟩ := hdone hd
      simp [p1]
    · simp [(hI.quiet hd).2]
  · by_cases hd : σ.worker = Worker.done
    · obtain ⟨v, _, p2, _⟩ := hdone hd
      rcases p2 with p2 | p2 <;> simp [p2]
    · simp [(hI.quiet hd).1]

/-- C9, on a sample: a goroutine stopped by the stop signal after the timeout
has sent nothing. -/
theorem result_channel_single_witness :
    (exec sampleReturned [Step.attempt (AttemptResult.connectedOk 1 2)]).worker =
      Worker.stopped ∧
    published (exec sampleReturned [Step.attempt (AttemptResult.connectedOk 1 2)]).trace = [] ∧
    (exec sampleReturned [Step.attempt (AttemptResult.connectedOk 1 2)]).connected = [] :=
  ⟨by decide,
    (result_channel_single sampleAddPEMKey { conn := none } sampleState
      [Step.attempt (AttemptResult.dialError "refused"), Step.timeout,
       Step.attempt (AttemptResult.connectedOk 1 2)]
      (exec sampleReturned [Step.attempt (AttemptResult.connectedOk 1 2)])
      (by decide)).2.2.2.1 (by decide)⟩

/-! ## The stop signal -/

/-- C10: an iteration of the attempt loop that finds a stop signal in
`connectQuit` ends the goroutine at once: the attempt counter and the failure
counter keep their values, no dial and no handshake is made and nothing is sent
(the trace is unchanged), `s.conn`, `comm`, `connected` and the state bag are
unchanged; and no later iteration does anything. -/
theorem attemptIter_stop_signal (σ : Sys) (r : AttemptResult) (rs : List AttemptResult)
    (hw : σ.worker = Worker.looping) (hq : σ.connectQuit ≠ []) :
    (attemptIter σ r).worker = Worker.stopped ∧
    (attemptIter σ r).attempts = σ.attempts ∧
    (attemptIter σ r).handshakeAttempts = σ.handshakeAttempts ∧
    (attemptIter σ r).conn = σ.conn ∧ (attemptIter σ r).comm = σ.comm ∧
    (attemptIter σ r).connected = σ.connected ∧ (attemptIter σ r).trace = σ.trace ∧
    (attemptIter σ r).state = σ.state ∧ (attemptIter σ r).main = σ.main ∧
    (attemptIter σ r).connectQuit = σ.connectQuit.tail ∧
    exec (attemptIter σ r) (rs.map Step.attempt) = attemptIter σ r := by
  cases hc : σ.connectQuit with
  | nil => exact absurd hc hq
  | cons b rest =>
    rw [attemptIter_quit σ r b rest hw hc]
    refine ⟨rfl, rfl, rfl, rfl, rfl, rfl, rfl, rfl, rfl, rfl, ?_⟩
    induction rs with
    | nil => rfl
    | cons a as ih =>
      rw [List.map_cons, exec_cons]
      simp only [step]
      rw [attemptIter_idle _ a (Or.inr (Or.inl rfl))]
      exact ih

/-- C10, on a sample: after the timeout the stop signal is in `connectQuit`;
the next iteration, whose dial and handshake would have succeeded, dials
nothing and ends the goroutine. -/
theorem attemptIter_stop_signal_witness :
    (attemptIter sampleReturned (AttemptResult.connectedOk 1 2)).worker = Worker.stopped ∧
    (attemptIter sampleReturned (AttemptResult.connectedOk 1 2)).attempts = 1 ∧
    (attemptIter sampleReturned (AttemptResult.connectedOk 1 2)).handshakeAttempts = 0 ∧
    (attemptIter sampleReturned (AttemptResult.connectedOk 1 2)).conn = none ∧
    (attemptIter sampleReturned (AttemptResult.connectedOk 1 2)).comm = none ∧
    (attemptIter sampleReturned (AttemptResult.connectedOk 1 2)).connected = [] ∧
    (attemptIter sampleReturned (AttemptResult.connectedOk 1 2)).trace = sampleReturned.trace ∧
    (attemptIter sampleReturned (AttemptResult.connectedOk 1 2)).state = sampleReturned.state ∧
    (attemptIter sampleReturned (AttemptResult.connectedOk 1 2)).main =
      Main.returned StepAction.ActionHalt ∧
    (attemptIter sampleReturned (AttemptResult.connectedOk 1 2)).connectQuit = [] ∧
    exec (attemptIter sampleReturned (AttemptResult.connectedOk 1 2))
        ([AttemptResult.connectedOk 3 4, AttemptResult.dialError "refused"].map Step.attempt) =
      attemptIter sampleReturned (AttemptResult.connectedOk 1 2) :=
  attemptIter_stop_signal sampleReturned (AttemptResult.connectedOk 1 2)
    [AttemptResult.connectedOk 3 4, AttemptResult.dialError "refused"] (by decide) (by decide)

end Digitalocean
